import Mathlib

/-!
Verification of sns3-satellite: encapsulation header, Rayleigh configuration, channel estimation error

A shallow embedding of
* `model/satellite-encapsulation-header.h` (class `SatEncapsulationHeader`),
* `model/satellite-rayleigh-conf.cc` (class `SatRayleighConf`),
* `model/satellite-channel-estimation-error.h` (class `SatChannelEstimationError`).

Machine integers are natural numbers reduced modulo `2^w` where a value enters a
field of width `w`.  Fatal terminations (`NS_ASSERT`, `NS_FATAL_ERROR`, reading
past the end of a container) are the `Except.error` results of the embedding.
-/

/-- Ways in which a call terminates the simulation instead of returning. -/
inductive Fatal where
  | assertFailed
  | outOfRange
  | emptyList
  | truncated
  deriving DecidableEq, Repr

deriving instance DecidableEq for Except

/-! ## SequenceNumber10 -/

/-- Modelled from the spec: the class `SequenceNumber10` of
`satellite-encapsulation-sequence-number.h` is not part of the sources at hand.
The spec describes a 10-bit field whose arithmetic is performed modulo 1024. -/
structure SequenceNumber10 where
  m_value : Fin 1024
  deriving DecidableEq, Repr

namespace SequenceNumber10

/-- Modelled from the spec: construction from a 16-bit value keeps the 10-bit field. -/
def ofNat (value : Nat) : SequenceNumber10 := ⟨⟨value % 1024, Nat.mod_lt _ (by decide)⟩⟩

/-- The stored 10-bit value. -/
def GetValue (s : SequenceNumber10) : Nat := s.m_value.val

/-- Modelled from the spec: subtraction `a - b`, "arithmetic performed modulo 1024". -/
def sub (a b : SequenceNumber10) : Nat := (a.GetValue + 1024 - b.GetValue) % 1024

/-- Modelled from the spec: how far apart two sequence numbers are, the smaller
of the two differences taken modulo 1024, so that numbers "straddling the 1024
boundary" compare as nearby. -/
def distance (a b : SequenceNumber10) : Nat := min (sub a b) (sub b a)

end SequenceNumber10

/-! ## SatEncapsulationHeader -/

/-- The members of `SatEncapsulationHeader`. -/
structure SatEncapsulationHeader where
  m_headerLength : Nat
  m_framingInfo : Nat
  m_sequenceNumber : SequenceNumber10
  m_extensionBits : List Nat
  m_lengthIndicators : List Nat
  deriving DecidableEq, Repr

namespace SatEncapsulationHeader

/-- Enumerator of `ExtensionBit_t`. -/
def DATA_FIELD_FOLLOWS : Nat := 0
/-- Enumerator of `ExtensionBit_t`. -/
def E_LI_FIELDS_FOLLOWS : Nat := 1
/-- Enumerator of `FramingInfoFirstByte_t`. -/
def FIRST_BYTE : Nat := 0x00
/-- Enumerator of `FramingInfoFirstByte_t`. -/
def NO_FIRST_BYTE : Nat := 0x02
/-- Enumerator of `FramingInfoLastByte_t`. -/
def LAST_BYTE : Nat := 0x00
/-- Enumerator of `FramingInfoLastByte_t`. -/
def NO_LAST_BYTE : Nat := 0x01

/-- The first-byte flags. -/
def firstByteFlags : List Nat := [FIRST_BYTE, NO_FIRST_BYTE]
/-- The last-byte flags. -/
def lastByteFlags : List Nat := [LAST_BYTE, NO_LAST_BYTE]

/-- A framing-info value: the bitwise OR of a first-byte and a last-byte flag. -/
def combine (first last : Nat) : Nat := first ||| last

/-- Modelled from the spec: the constructor body is not part of the sources at
hand ("Creates a null header"): all fields zero, both lists empty. -/
def new : SatEncapsulationHeader :=
  { m_headerLength := 0, m_framingInfo := 0, m_sequenceNumber := SequenceNumber10.ofNat 0,
    m_extensionBits := [], m_lengthIndicators := [] }

/-- Modelled from the spec: body of `SetFramingInfo (uint8_t)` is absent; a
setter on the in-memory representation, which the member declaration
(`m_framingInfo; //  2 bits`) and the spec's data model give two bits. -/
def SetFramingInfo (h : SatEncapsulationHeader) (framingInfo : Nat) : SatEncapsulationHeader :=
  { h with m_framingInfo := framingInfo % 4 }

/-- Modelled from the spec: body of `SetSequenceNumber` is absent; a pure setter. -/
def SetSequenceNumber (h : SatEncapsulationHeader) (sequenceNumber : SequenceNumber10) :
    SatEncapsulationHeader :=
  { h with m_sequenceNumber := sequenceNumber }

/-- Modelled from the spec: body of `GetFramingInfo` is absent; reads the field. -/
def GetFramingInfo (h : SatEncapsulationHeader) : Nat := h.m_framingInfo

/-- Modelled from the spec: body of `GetSequenceNumber` is absent; reads the field. -/
def GetSequenceNumber (h : SatEncapsulationHeader) : SequenceNumber10 := h.m_sequenceNumber

/-- Modelled from the spec: body of `PushExtensionBit (uint8_t)` is absent;
appends to the ordered list of extension bits. -/
def PushExtensionBit (h : SatEncapsulationHeader) (extensionBit : Nat) : SatEncapsulationHeader :=
  { h with m_extensionBits := h.m_extensionBits ++ [extensionBit % 256] }

/-- Modelled from the spec: body of `PushLengthIndicator (uint16_t)` is absent;
appends to the ordered list of length indicators. -/
def PushLengthIndicator (h : SatEncapsulationHeader) (lengthIndicator : Nat) :
    SatEncapsulationHeader :=
  { h with m_lengthIndicators := h.m_lengthIndicators ++ [lengthIndicator % 65536] }

/-- Modelled from the spec: body of `PopExtensionBit` is absent; consumes from the
front of the list, popping an empty list is a fatal contract violation. -/
def PopExtensionBit (h : SatEncapsulationHeader) : Except Fatal (Nat × SatEncapsulationHeader) :=
  match h.m_extensionBits with
  | [] => .error .emptyList
  | e :: es => .ok (e, { h with m_extensionBits := es })

/-- Modelled from the spec: body of `PopLengthIndicator` is absent; consumes from
the front of the list, popping an empty list is a fatal contract violation. -/
def PopLengthIndicator (h : SatEncapsulationHeader) : Except Fatal (Nat × SatEncapsulationHeader) :=
  match h.m_lengthIndicators with
  | [] => .error .emptyList
  | l :: ls => .ok (l, { h with m_lengthIndicators := ls })

/-- Pop `n` extension bits in succession, collecting the returned values. -/
def popExtensionBits : Nat → SatEncapsulationHeader → Except Fatal (List Nat × SatEncapsulationHeader)
  | 0, h => .ok ([], h)
  | n + 1, h =>
    match PopExtensionBit h with
    | .error e => .error e
    | .ok (v, h1) =>
      match popExtensionBits n h1 with
      | .error e => .error e
      | .ok (vs, h2) => .ok (v :: vs, h2)

/-- Pop `n` length indicators in succession, collecting the returned values. -/
def popLengthIndicators : Nat → SatEncapsulationHeader → Except Fatal (List Nat × SatEncapsulationHeader)
  | 0, h => .ok ([], h)
  | n + 1, h =>
    match PopLengthIndicator h with
    | .error e => .error e
    | .ok (v, h1) =>
      match popLengthIndicators n h1 with
      | .error e => .error e
      | .ok (vs, h2) => .ok (v :: vs, h2)

/-- Number of extension-bit groups: one byte holds up to eight extension bits
(spec, section 8: "ceil(3 bits / 8 ...)" for three extension bits). -/
def extensionBitGroups (extensionBits : List Nat) : Nat := (extensionBits.length + 7) / 8

/-- Modelled from the spec: body of `GetSerializedSize` is absent; "2 bytes fixed
+ 1 byte per extension bit group + 2 bytes per length indicator", returned as
`uint32_t`. -/
def GetSerializedSize (h : SatEncapsulationHeader) : Nat :=
  (2 + extensionBitGroups h.m_extensionBits + 2 * h.m_lengthIndicators.length) % 2 ^ 32

/-- Pack extension bits into one byte, most significant bit first; unused low
bits stay `DATA_FIELD_FOLLOWS`. -/
def packBits : List Nat → Nat → Nat
  | [], _ => 0
  | e :: es, w => (e % 2) * w + packBits es (w / 2)

/-- A 16-bit length indicator as two bytes, high byte first. -/
def writeU16 (v : Nat) : List Nat := [v / 256 % 256, v % 256]

/-- The length indicators as bytes, in list order. -/
def writeLengthIndicators : List Nat → List Nat
  | [] => []
  | l :: ls => writeU16 l ++ writeLengthIndicators ls

/-- Number of `E_LI_FIELDS_FOLLOWS` bits of a group. -/
def countFollows : List Nat → Nat
  | [] => 0
  | e :: es => (if e % 2 = E_LI_FIELDS_FOLLOWS then 1 else 0) + countFollows es

/-- Write the extension-bit groups: each group byte is followed by the length
indicators announced by its `E_LI_FIELDS_FOLLOWS` bits. -/
def writeGroups : Nat → List Nat → List Nat → List Nat
  | 0, _, _ => []
  | fuel + 1, exts, lis =>
    match exts with
    | [] => []
    | _ :: _ =>
      let g := exts.take 8
      let k := countFollows g
      packBits g 128 :: (writeLengthIndicators (lis.take k)
        ++ writeGroups fuel (exts.drop 8) (lis.drop k))

/-- Modelled from the spec: body of `Serialize` is absent.  Section 6 gives the
fields and their widths (framing info 2 bits and sequence number 10 bits in the
2 fixed bytes, 1 bit per extension bit, 16 bits per length indicator), section 4.4
their order ("framing-info byte, sequence-number field, then each
extension-bit/length-indicator pair in push order").  The buffer is the list of
bytes written from the start position. -/
def Serialize (h : SatEncapsulationHeader) : List Nat :=
  ((h.m_framingInfo % 4) * 4 + h.m_sequenceNumber.GetValue / 256)
    :: (h.m_sequenceNumber.GetValue % 256)
    :: writeGroups h.m_extensionBits.length h.m_extensionBits h.m_lengthIndicators

/-- Walk the `n` low-order bit positions of a group byte from the most
significant one down, stopping after the first `DATA_FIELD_FOLLOWS`; returns the
bits read and whether the terminating bit was seen. -/
def walkBits : Nat → Nat → List Nat × Bool
  | 0, _ => ([], false)
  | n + 1, b =>
    if b / 2 ^ n % 2 = DATA_FIELD_FOLLOWS then ([DATA_FIELD_FOLLOWS], true)
    else ((E_LI_FIELDS_FOLLOWS :: (walkBits n b).1), (walkBits n b).2)

/-- Read `k` length indicators; a buffer that ends mid-field is fatal. -/
def readLengthIndicators : Nat → List Nat → Except Fatal (List Nat × List Nat)
  | 0, buf => .ok ([], buf)
  | k + 1, hi :: lo :: buf =>
    match readLengthIndicators k buf with
    | .error e => .error e
    | .ok (ls, rest) => .ok ((hi % 256 * 256 + lo % 256) :: ls, rest)
  | _ + 1, _ => .error .truncated

/-- Read extension-bit groups until the terminating bit is seen; returns the
extension bits, the length indicators and the unread remainder. -/
def readGroups : Nat → List Nat → Except Fatal (List Nat × List Nat × List Nat)
  | 0, _ => .error .truncated
  | _ + 1, [] => .error .truncated
  | fuel + 1, b :: buf =>
    let w := walkBits 8 b
    match readLengthIndicators (countFollows w.1) buf with
    | .error e => .error e
    | .ok (ls, rest) =>
      if w.2 then .ok (w.1, ls, rest)
      else
        match readGroups fuel rest with
        | .error e => .error e
        | .ok (es, ls2, rest2) => .ok (w.1 ++ es, ls ++ ls2, rest2)

/-- Modelled from the spec: body of `Deserialize` is absent; "reads fields back
in the same order, reconstructing the lists; walks extension bits until the
terminating data-follows bit is seen, reading one length indicator per
fields-follow bit encountered", a truncated buffer being fatal.  Returns the
header after the call and the number of bytes consumed (`uint32_t`). -/
def Deserialize (h : SatEncapsulationHeader) (buf : List Nat) :
    Except Fatal (SatEncapsulationHeader × Nat) :=
  match buf with
  | b0 :: b1 :: body =>
    match readGroups body.length body with
    | .error e => .error e
    | .ok (es, ls, rest) =>
      .ok ({ h with
              m_framingInfo := b0 / 4 % 4
              m_sequenceNumber := SequenceNumber10.ofNat (b0 % 4 * 256 + b1 % 256)
              m_extensionBits := h.m_extensionBits ++ es
              m_lengthIndicators := h.m_lengthIndicators ++ ls },
           (buf.length - rest.length) % 2 ^ 32)
  | _ => .error .truncated

/-- The header of the round-trip property: framing info and sequence number set
on a fresh header, one `E_LI_FIELDS_FOLLOWS` / length-indicator pair pushed per
element of `lis`, then the terminating `DATA_FIELD_FOLLOWS`. -/
def build (framingInfo : Nat) (sequenceNumber : SequenceNumber10) (lis : List Nat) :
    SatEncapsulationHeader :=
  PushExtensionBit
    (lis.foldl (fun h li => PushLengthIndicator (PushExtensionBit h E_LI_FIELDS_FOLLOWS) li)
      (SetSequenceNumber (SetFramingInfo new framingInfo) sequenceNumber))
    DATA_FIELD_FOLLOWS

end SatEncapsulationHeader

/-! ## SatRayleighConf -/

namespace SatMarkovConf

/-- Modelled from the spec: `satellite-markov-conf.h` is not part of the sources
at hand; the elevation buckets are "40/60/70/80" and the initialiser of
`g_RayleighParameters` has four elevation blocks. -/
def DEFAULT_ELEVATION_COUNT : Nat := 4

/-- Modelled from the spec: `satellite-markov-conf.h` is not part of the sources
at hand; the spec has three Markov states and every elevation block of
`g_RayleighParameters` has three rows. -/
def DEFAULT_STATE_COUNT : Nat := 3

end SatMarkovConf

/-- The members of `SatRayleighConf`. -/
structure SatRayleighConf where
  m_elevationCount : Nat
  m_stateCount : Nat
  m_rayleighParameters : List (List (List Rat))
  deriving DecidableEq

namespace SatRayleighConf

/-- Modelled from the spec: `satellite-rayleigh-conf.h` is not part of the sources
at hand; for Rayleigh "a pair of scale parameters", and every row of
`g_RayleighParameters` has two values. -/
def DEFAULT_RAYLEIGH_PARAMETER_COUNT : Nat := 2

/-- The compiled-in table `g_RayleighParameters`. -/
def g_RayleighParameters : List (List (List Rat)) :=
  [ [[10, 10], [10, 10], [10, 10]],
    [[10, 10], [10, 10], [10, 10]],
    [[10, 10], [10, 10], [10, 10]],
    [[10, 10], [10, 10], [10, 10]] ]

/-- The array access `g_RayleighParameters[i][j][k]`. -/
def g_RayleighParametersAt (i j k : Nat) : Rat :=
  ((g_RayleighParameters.getD i []).getD j []).getD k 0

/-- The constructor `SatRayleighConf::SatRayleighConf ()`: the initialiser list
gives both counts their default values and the three nested loops fill the table. -/
def new : SatRayleighConf :=
  let elevationCount := SatMarkovConf.DEFAULT_ELEVATION_COUNT
  let stateCount := SatMarkovConf.DEFAULT_STATE_COUNT
  { m_elevationCount := elevationCount
    m_stateCount := stateCount
    m_rayleighParameters :=
      (List.range elevationCount).map fun i =>
        (List.range stateCount).map fun j =>
          (List.range DEFAULT_RAYLEIGH_PARAMETER_COUNT).map fun k =>
            g_RayleighParametersAt i j k }

/-- The attributes registered by `GetTypeId`. -/
inductive Attribute where
  | ElevationCount
  | StateCount
  deriving DecidableEq, Repr

/-- Setting an attribute through its accessor: `MakeUintegerAccessor` of
`GetTypeId` binds `ElevationCount` to `m_elevationCount` and `StateCount` to
`m_stateCount`, both checked as `uint32_t`; nothing else is written. -/
def SetAttribute (c : SatRayleighConf) (a : Attribute) (value : Nat) : SatRayleighConf :=
  match a with
  | .ElevationCount => { c with m_elevationCount := value % 2 ^ 32 }
  | .StateCount => { c with m_stateCount := value % 2 ^ 32 }

/-- The method `SatRayleighConf::GetParameters (uint32_t set)`: the assertion
`(set >= 0) && (set < m_elevationCount)`, then `m_rayleighParameters[set]`;
indexing the vector past its end has no defined result. -/
def GetParameters (c : SatRayleighConf) (set : Nat) : Except Fatal (List (List Rat)) :=
  if 0 ≤ set ∧ set < c.m_elevationCount then
    match c.m_rayleighParameters[set]? with
    | some states => .ok states
    | none => .error .outOfRange
  else .error .assertFailed

end SatRayleighConf

/-! ## SatChannelEstimationError -/

/-- The members of `SatChannelEstimationError`.  The samples are `double`s of
which the lookup uses the order only; `α` stands for them.  The random variable
`m_normalRandomVariable` is passed to `AddError` as the draw it delivers. -/
structure SatChannelEstimationError (α : Type) where
  m_lastSampleIndex : Nat
  m_sinrsDb : List α
  m_mueCesDb : List α
  m_stdCesDb : List α
  deriving DecidableEq

namespace SatChannelEstimationError

variable {α : Type}

/-- Modelled from the spec: `ReadFile` and the constructor taking a file are not
part of the sources at hand.  The file holds (sinrDb, meanErrorDb, stdErrorDb)
rows; they fill the three containers and `m_lastSampleIndex` is the "last sample
index of the containers". -/
def ofRows (rows : List (α × α × α)) : SatChannelEstimationError α :=
  { m_lastSampleIndex := rows.length - 1
    m_sinrsDb := rows.map fun r => r.1
    m_mueCesDb := rows.map fun r => r.2.1
    m_stdCesDb := rows.map fun r => r.2.2 }

/-- Scan the samples in order for the first one that is not below `x`, stopping
at the last sample. -/
def scanSamples [LinearOrder α] : List α → α → Nat
  | [], _ => 0
  | [_], _ => 0
  | s :: t :: ts, x => if s < x then scanSamples (t :: ts) x + 1 else 0

/-- Modelled from the spec: the body of `AddError` is absent.  "Performs a search
over the sorted table for the sample matching sinrDb"; "sinrDb outside the
table's domain clamps to the nearest boundary entry rather than failing".
Returns the index of the sample used. -/
def findSample [LinearOrder α] (m : SatChannelEstimationError α) (sinrInDb : α) :
    Except Fatal Nat :=
  match m.m_sinrsDb with
  | [] => .error .outOfRange
  | first :: _ =>
    if sinrInDb < first then .ok 0
    else if m.m_sinrsDb.getD m.m_lastSampleIndex first < sinrInDb then .ok m.m_lastSampleIndex
    else .ok (scanSamples m.m_sinrsDb sinrInDb)

/-- Modelled from the spec: the body of `AddError` is absent.  "retrieves (mean,
std) for that point, and returns sinrDb + sample(Normal(mean, std))"; `normal`
is the draw of the random variable for a mean and a standard deviation. -/
def AddError [LinearOrder α] [Add α] (m : SatChannelEstimationError α) (sinrInDb : α)
    (normal : α → α → α) : Except Fatal α :=
  match findSample m sinrInDb with
  | .error e => .error e
  | .ok i =>
    match m.m_mueCesDb[i]?, m.m_stdCesDb[i]? with
    | some mue, some std => .ok (sinrInDb + normal mue std)
    | _, _ => .error .outOfRange

/-- A call of `AddError` as a step on the model.  The member function is declared
`double AddError (double sinrInDb) const` and `m_lastSampleIndex` is not
`mutable`: the object after the call is the object before it. -/
def AddErrorStep [LinearOrder α] [Add α] (m : SatChannelEstimationError α) (sinrInDb : α)
    (normal : α → α → α) : Except Fatal (α × SatChannelEstimationError α) :=
  match AddError m sinrInDb normal with
  | .error e => .error e
  | .ok r => .ok (r, m)

/-- A table of three samples used at concrete inputs. -/
def sampleRows : List (Int × Int × Int) := [(0, 1, 2), (5, 3, 4), (10, 5, 6)]

end SatChannelEstimationError

/-! ## examples/sat-loo-example.cc -/

namespace SatLooExample

/-- The three faders created by `main`. -/
inductive Fader where
  | looFaderLineOfSight
  | looFaderLightShadowing
  | looFaderHeavyShadowing
  deriving DecidableEq, Repr

/-- The arguments `(looConf, 3, 0, s)` of `CreateObject<SatLooModel>`: number of
states, elevation set and initial state of each fader. -/
def Fader.arguments : Fader → Nat × Nat × Nat
  | .looFaderLineOfSight => (3, 0, 0)
  | .looFaderLightShadowing => (3, 0, 1)
  | .looFaderHeavyShadowing => (3, 0, 2)

/-- The expression `c + i*500000` with `uint32_t i`, in unsigned 32-bit arithmetic. -/
def sampleTime (c i : Nat) : Nat := (c + i * 500000 % 2 ^ 32) % 2 ^ 32

/-- The three `Simulator::Schedule` calls of loop iteration `i`, in call order. -/
def iteration (i : Nat) : List (Nat × Fader) :=
  [(sampleTime 300000 i, .looFaderLineOfSight),
   (sampleTime 500000 i, .looFaderLightShadowing),
   (sampleTime 700000 i, .looFaderHeavyShadowing)]

/-- The events scheduled by the first `n` iterations of the loop, in call order. -/
def scheduled : Nat → List (Nat × Fader)
  | 0 => []
  | n + 1 => scheduled n ++ iteration n

/-- The loop `for (uint32_t i = 0; i < 1000; i++)` of `main`. -/
def schedule : List (Nat × Fader) := scheduled 1000

/-- The order in which `Simulator::Run` executes scheduled events: by time, events
of equal time in the order of their scheduling. -/
def executionOrder (events : List (Nat × Fader)) : List (Nat × Fader) :=
  events.insertionSort fun a b => a.1 ≤ b.1

end SatLooExample

/-! ## examples/sat-multi-application-fwd-example.cc -/

namespace SatMultiApplicationFwdExample

/-- The local `uint8_t onOffTos (0x28)`. -/
def onOffTos : Nat := 0x28
/-- The local `uint8_t cbrTos (0xB8)`. -/
def cbrTos : Nat := 0xB8
/-- The local `uint16_t port = 9`. -/
def port : Nat := 9

/-- The two node containers filled by the dividing loop and the
`SetAttribute ("DefaultTos", ...)` calls it makes, as (node, value) in call order.
Nodes are identified by numbers. -/
structure UserGroups where
  utCbrUsers : List Nat
  utOnOffUsers : List Nat
  defaultTos : List (Nat × Nat)
  deriving DecidableEq, Repr

/-- The loop over `utUsers` of `main`: `rand k` is the value of the `k`-th call
of `rand->GetValue ()`, compared with `cbrProbability` as `double`s. -/
def divideLoop {α : Type} [LinearOrder α] (rand : Nat → α) (cbrProbability : α) :
    List Nat → Nat → UserGroups → UserGroups
  | [], _, g => g
  | u :: us, k, g =>
    if rand k < cbrProbability then
      divideLoop rand cbrProbability us (k + 1)
        { g with utCbrUsers := g.utCbrUsers ++ [u]
                 defaultTos := g.defaultTos ++ [(u, cbrTos)] }
    else
      divideLoop rand cbrProbability us (k + 1)
        { g with utOnOffUsers := g.utOnOffUsers ++ [u]
                 defaultTos := g.defaultTos ++ [(u, onOffTos)] }

/-- The division of the UT users of `main`, starting from empty containers. -/
def divideUsers {α : Type} [LinearOrder α] (utUsers : List Nat) (rand : Nat → α)
    (cbrProbability : α) : UserGroups :=
  divideLoop rand cbrProbability utUsers 0
    { utCbrUsers := [], utOnOffUsers := [], defaultTos := [] }

/-- An installed application: the node it is installed on and the socket address
(user address, port) of its `Remote` (sender) or `Local` (sink) attribute. -/
structure Application where
  node : Nat
  address : Nat × Nat
  deriving DecidableEq, Repr

/-- The application containers `gwCbrApps` and `utCbrSinkApps`. -/
structure CbrApplications where
  gwCbrApps : List Application
  utCbrSinkApps : List Application
  deriving DecidableEq, Repr

/-- The loop `for (uint32_t i = 0; i < utCbrUsers.GetN (); i++)`: each iteration
sets `Remote` and `Local` to the address of `utCbrUsers.Get (i)` at `port`,
installs one sender on `gwUsers.Get (4)` and one sink on `utCbrUsers.Get (i)`. -/
def cbrLoop (GetUserAddress : Nat → Nat) (gwUsers : List Nat) :
    List Nat → CbrApplications → Except Fatal CbrApplications
  | [], apps => .ok apps
  | u :: us, apps =>
    match gwUsers[4]? with
    | none => .error .outOfRange
    | some gw =>
      cbrLoop GetUserAddress gwUsers us
        { gwCbrApps := apps.gwCbrApps ++ [{ node := gw, address := (GetUserAddress u, port) }]
          utCbrSinkApps :=
            apps.utCbrSinkApps ++ [{ node := u, address := (GetUserAddress u, port) }] }

/-- The CBR application definitions of `main`, guarded by `utCbrUsers.GetN () > 0`. -/
def installCbr (GetUserAddress : Nat → Nat) (gwUsers utCbrUsers : List Nat) :
    Except Fatal CbrApplications :=
  if utCbrUsers.length > 0 then
    cbrLoop GetUserAddress gwUsers utCbrUsers { gwCbrApps := [], utCbrSinkApps := [] }
  else .ok { gwCbrApps := [], utCbrSinkApps := [] }

end SatMultiApplicationFwdExample

/-! ## examples/sat-ra-sim-tn9-comparison.cc -/

namespace SatRaSimTn9Comparison

/-- The attribute values passed to `Config::SetDefault` by the script. -/
inductive AttributeValue where
  | boolean (value : Bool)
  | uinteger (value : Nat)
  | enumerator (name : String)
  | milliSeconds (value : Nat)
  | double (value : Rat)
  deriving DecidableEq

/-- The default attribute values in force, by attribute name. -/
abbrev Defaults := String → Option AttributeValue

/-- The call `Config::SetDefault (name, value)`: the value replaces the default of
that attribute. -/
def SetDefault (name : String) (value : AttributeValue) (d : Defaults) : Defaults :=
  fun k => if k = name then some value else d k

/-- The `Config::SetDefault` calls of `main` after `cmd.Parse`, in order. -/
def scriptDefaults (numOfInstances : Nat) : List (String × AttributeValue) :=
  [ ("ns3::SatBeamHelper::RandomAccessModel", .enumerator "SatEnums::RA_MODEL_RCS2_SPECIFICATION"),
    ("ns3::SatBeamHelper::RaInterferenceModel", .enumerator "SatPhyRxCarrierConf::IF_PER_PACKET"),
    ("ns3::SatBeamHelper::RaCollisionModel",
      .enumerator "SatPhyRxCarrierConf::RA_COLLISION_CHECK_AGAINST_SINR"),
    ("ns3::SatBeamHelper::FadingModel", .enumerator "SatEnums::FADING_OFF"),
    ("ns3::SatRequestManager::CnoReportInterval", .milliSeconds 60000),
    ("ns3::SatBeamScheduler::ControlSlotsEnabled", .boolean false),
    ("ns3::SatPhyRxCarrierConf::EnableRandomAccessDynamicLoadControl", .boolean false),
    ("ns3::SatPhyRxCarrierConf::RandomAccessAverageNormalizedOfferedLoadMeasurementWindowSize",
      .uinteger 10),
    ("ns3::SatLowerLayerServiceConf::RaService0_MaximumUniquePayloadPerBlock", .uinteger 1),
    ("ns3::SatLowerLayerServiceConf::RaService0_MaximumConsecutiveBlockAccessed", .uinteger 6),
    ("ns3::SatLowerLayerServiceConf::RaService0_MinimumIdleBlock", .uinteger 0),
    ("ns3::SatLowerLayerServiceConf::RaService0_BackOffTimeInMilliSeconds", .uinteger 50),
    ("ns3::SatLowerLayerServiceConf::RaService0_BackOffProbability", .uinteger 1),
    ("ns3::SatLowerLayerServiceConf::RaService0_HighLoadBackOffProbability", .uinteger 1),
    ("ns3::SatLowerLayerServiceConf::RaService0_AverageNormalizedOfferedLoadThreshold",
      .double (99 / 100)),
    ("ns3::SatLowerLayerServiceConf::RaService0_NumberOfInstances",
      .uinteger (numOfInstances % 2 ^ 32)),
    ("ns3::SatLowerLayerServiceConf::DaService0_ConstantAssignmentProvided", .boolean false),
    ("ns3::SatLowerLayerServiceConf::DaService1_ConstantAssignmentProvided", .boolean false),
    ("ns3::SatLowerLayerServiceConf::DaService2_ConstantAssignmentProvided", .boolean false),
    ("ns3::SatLowerLayerServiceConf::DaService3_ConstantAssignmentProvided", .boolean false),
    ("ns3::SatLowerLayerServiceConf::DaService0_RbdcAllowed", .boolean false),
    ("ns3::SatLowerLayerServiceConf::DaService1_RbdcAllowed", .boolean false),
    ("ns3::SatLowerLayerServiceConf::DaService2_RbdcAllowed", .boolean false),
    ("ns3::SatLowerLayerServiceConf::DaService3_RbdcAllowed", .boolean false),
    ("ns3::SatLowerLayerServiceConf::DaService0_VolumeAllowed", .boolean false),
    ("ns3::SatLowerLayerServiceConf::DaService1_VolumeAllowed", .boolean false),
    ("ns3::SatLowerLayerServiceConf::DaService2_VolumeAllowed", .boolean false),
    ("ns3::SatLowerLayerServiceConf::DaService3_VolumeAllowed", .boolean false),
    ("ns3::SatBeamHelper::CtrlMsgStoreTimeInRtnLink", .milliSeconds 600) ]

/-- The defaults in force when `CreateObject<SatHelper>` creates the scenario:
`loaded` are the defaults after the XML file and the command line have been
read, then the calls of `scriptDefaults` are made in order. -/
def defaultsAtCreation (numOfInstances : Nat) (loaded : Defaults) : Defaults :=
  (scriptDefaults numOfInstances).foldl (fun d kv => SetDefault kv.1 kv.2 d) loaded

end SatRaSimTn9Comparison

/-! ## examples/sat-training-example.cc -/

namespace SatTrainingExample

/-- The constant `BEAMS`. -/
def BEAMS : Nat := 16

/-- The array `coChannelBeams`. -/
def coChannelBeams : List Nat := [1, 3, 5, 7, 9, 22, 24, 26, 28, 30, 44, 46, 48, 50, 59, 61]

/-- The arguments of the constructor `SatBeamUserInfo (utsPerBeam, endUsersPerUt)`;
the class itself is not part of the sources at hand. -/
structure SatBeamUserInfo where
  utsPerBeam : Nat
  endUsersPerUt : Nat
  deriving DecidableEq, Repr

/-- The assignment `m[key] = value` on a `std::map<uint32_t, SatBeamUserInfo>`,
kept as a list of entries in ascending key order. -/
def mapAssign (key : Nat) (value : SatBeamUserInfo) :
    List (Nat × SatBeamUserInfo) → List (Nat × SatBeamUserInfo)
  | [] => [(key, value)]
  | (k, v) :: m =>
    if key < k then (key, value) :: (k, v) :: m
    else if key = k then (k, value) :: m
    else (k, v) :: mapAssign key value m

/-- The beam map built by the loop `for (unsigned i = 0; i < BEAMS; ++i)`. -/
def beamMap (utsPerBeam endUsersPerUt : Nat) : List (Nat × SatBeamUserInfo) :=
  (List.range BEAMS).foldl
    (fun m i => mapAssign (coChannelBeams.getD i 0)
      { utsPerBeam := utsPerBeam, endUsersPerUt := endUsersPerUt } m) []

/-- The application loop over `utUsers`: the start time, in milliseconds, given
to each application; `rnd k` is the value of the `k`-th call of
`rnd->GetInteger (0, 50)`. -/
def startTimesFrom (rnd : Nat → Fin 51) : List Nat → Nat → Nat → List Nat
  | [], _, _ => []
  | _ :: us, k, appStartTime =>
    appStartTime :: startTimesFrom rnd us (k + 1) (appStartTime + (rnd k).val)

/-- The start times of the On-Off applications, from `appStartTime (MilliSeconds (100))`. -/
def startTimes (utUsers : List Nat) (rnd : Nat → Fin 51) : List Nat :=
  startTimesFrom rnd utUsers 0 100

/-- All elements of a list are the same. -/
def allSame (l : List Nat) : Prop := ∀ x ∈ l, ∀ y ∈ l, x = y

instance (l : List Nat) : Decidable (allSame l) := by
  unfold allSame; infer_instance

end SatTrainingExample

/-! ## Theorems: SatRayleighConf -/

namespace SatRayleighConf

/-- The assertion of `GetParameters` rejects every set index that is not below
`m_elevationCount`, whatever the configuration. -/
theorem GetParameters_assert (c : SatRayleighConf) (set : Nat) (h : c.m_elevationCount ≤ set) :
    GetParameters c set = .error .assertFailed := by
  unfold GetParameters
  rw [if_neg]
  omega

/-- On a default-constructed configuration every set index below the elevation
count yields a table of `DEFAULT_STATE_COUNT` rows of
`DEFAULT_RAYLEIGH_PARAMETER_COUNT` values. -/
theorem GetParameters_new (set : Nat) (h : set < new.m_elevationCount) :
    ∃ states, GetParameters new set = .ok states ∧
      states.length = SatMarkovConf.DEFAULT_STATE_COUNT ∧
      ∀ p ∈ states, p.length = DEFAULT_RAYLEIGH_PARAMETER_COUNT := by
  have h4 : set < 4 := h
  interval_cases set <;> exact ⟨[[10, 10], [10, 10], [10, 10]], by decide, by decide, by decide⟩

/-- C2 (the code at the failing input): after the host configuration layer sets
`StateCount` to 5 on a constructed `SatRayleighConf`, the configured state count
is 5 but `GetParameters (0)` still returns the 3 rows built by the constructor. -/
theorem GetParameters_stateCount_changed :
    (SetAttribute new .StateCount 5).m_stateCount = 5 ∧
    GetParameters (SetAttribute new .StateCount 5) 0
      = .ok [[10, 10], [10, 10], [10, 10]] ∧
    (GetParameters (SetAttribute new .StateCount 5) 0).toOption.map List.length = some 3 := by
  decide

/-- C3 (the code at the failing input): after the host configuration layer sets
`ElevationCount` to 5, set index 4 is below the elevation count and passes the
assertion, but the table built by the constructor has 4 entries: the call reads
past its end and returns no parameter table. -/
theorem GetParameters_elevationCount_changed :
    (SetAttribute new .ElevationCount 5).m_elevationCount = 5 ∧
    (SetAttribute new .ElevationCount 5).m_rayleighParameters.length = 4 ∧
    GetParameters (SetAttribute new .ElevationCount 5) 4 = .error .outOfRange := by
  decide

end SatRayleighConf

/-! ## Theorems: SatEncapsulationHeader -/

namespace SatEncapsulationHeader

/-- C4: a framing-info value combined from one first-byte flag and one last-byte
flag is below 4, both flags are recovered from it by masking, and two
combinations that agree come from the same two flags. -/
theorem combine_flags (f l : Nat) (hf : f ∈ firstByteFlags) (hl : l ∈ lastByteFlags) :
    combine f l < 4 ∧ combine f l &&& NO_FIRST_BYTE = f ∧ combine f l &&& NO_LAST_BYTE = l ∧
    ∀ f2 l2, f2 ∈ firstByteFlags → l2 ∈ lastByteFlags →
      combine f l = combine f2 l2 → f = f2 ∧ l = l2 := by
  simp only [firstByteFlags, lastByteFlags, List.mem_cons, List.mem_singleton,
    List.not_mem_nil, or_false] at hf hl
  refine ⟨?_, ?_, ?_, ?_⟩
  · rcases hf with rfl | rfl <;> rcases hl with rfl | rfl <;> decide
  · rcases hf with rfl | rfl <;> rcases hl with rfl | rfl <;> decide
  · rcases hf with rfl | rfl <;> rcases hl with rfl | rfl <;> decide
  · intro f2 l2 hf2 hl2
    simp only [firstByteFlags, lastByteFlags, List.mem_cons, List.mem_singleton,
      List.not_mem_nil, or_false] at hf2 hl2
    rcases hf with rfl | rfl <;> rcases hl with rfl | rfl <;>
      rcases hf2 with rfl | rfl <;> rcases hl2 with rfl | rfl <;> decide

/-- Witness of C4 at `NO_FIRST_BYTE | NO_LAST_BYTE`. -/
theorem combine_flags_witness :
    combine NO_FIRST_BYTE NO_LAST_BYTE < 4 ∧
    combine NO_FIRST_BYTE NO_LAST_BYTE &&& NO_FIRST_BYTE = NO_FIRST_BYTE ∧
    combine NO_FIRST_BYTE NO_LAST_BYTE &&& NO_LAST_BYTE = NO_LAST_BYTE ∧
    ∀ f2 l2, f2 ∈ firstByteFlags → l2 ∈ lastByteFlags →
      combine NO_FIRST_BYTE NO_LAST_BYTE = combine f2 l2 →
        NO_FIRST_BYTE = f2 ∧ NO_LAST_BYTE = l2 :=
  combine_flags NO_FIRST_BYTE NO_LAST_BYTE (by decide) (by decide)

/-- C5: the serialized size is a function of the two lists alone: 2 fixed bytes,
one byte per group of up to eight extension bits and two bytes per length
indicator (as `uint32_t`); headers holding equal lists report equal sizes. -/
theorem GetSerializedSize_lists (h h2 : SatEncapsulationHeader)
    (hE : h.m_extensionBits = h2.m_extensionBits)
    (hL : h.m_lengthIndicators = h2.m_lengthIndicators) :
    GetSerializedSize h = GetSerializedSize h2 ∧
    GetSerializedSize h
      = (2 + extensionBitGroups h.m_extensionBits + 2 * h.m_lengthIndicators.length) % 2 ^ 32 ∧
    h.m_extensionBits.length ≤ 8 * extensionBitGroups h.m_extensionBits ∧
    8 * extensionBitGroups h.m_extensionBits < h.m_extensionBits.length + 8 := by
  refine ⟨?_, rfl, ?_, ?_⟩
  · simp only [GetSerializedSize, hE, hL]
  · unfold extensionBitGroups; omega
  · unfold extensionBitGroups; omega

/-- Witness of C5: two headers that differ in framing info and sequence number
but hold the same lists. -/
theorem GetSerializedSize_lists_witness :
    GetSerializedSize (build 0 (SequenceNumber10.ofNat 7) [37, 512])
      = GetSerializedSize (build 3 (SequenceNumber10.ofNat 513) [37, 512]) ∧
    GetSerializedSize (build 0 (SequenceNumber10.ofNat 7) [37, 512])
      = (2 + extensionBitGroups (build 0 (SequenceNumber10.ofNat 7) [37, 512]).m_extensionBits
          + 2 * (build 0 (SequenceNumber10.ofNat 7) [37, 512]).m_lengthIndicators.length) % 2 ^ 32 ∧
    (build 0 (SequenceNumber10.ofNat 7) [37, 512]).m_extensionBits.length
      ≤ 8 * extensionBitGroups (build 0 (SequenceNumber10.ofNat 7) [37, 512]).m_extensionBits ∧
    8 * extensionBitGroups (build 0 (SequenceNumber10.ofNat 7) [37, 512]).m_extensionBits
      < (build 0 (SequenceNumber10.ofNat 7) [37, 512]).m_extensionBits.length + 8 :=
  GetSerializedSize_lists (build 0 (SequenceNumber10.ofNat 7) [37, 512])
    (build 3 (SequenceNumber10.ofNat 513) [37, 512]) (by decide) (by decide)

theorem popExtensionBits_all (h : SatEncapsulationHeader) :
    popExtensionBits h.m_extensionBits.length h
      = .ok (h.m_extensionBits, { h with m_extensionBits := [] }) := by
  obtain ⟨hl, fi, sn, es, ls⟩ := h
  induction es with
  | nil => rfl
  | cons e es ih =>
    simp only [List.length_cons, popExtensionBits, PopExtensionBit]
    simp only [] at ih
    rw [ih]

theorem popLengthIndicators_all (h : SatEncapsulationHeader) :
    popLengthIndicators h.m_lengthIndicators.length h
      = .ok (h.m_lengthIndicators, { h with m_lengthIndicators := [] }) := by
  obtain ⟨hl, fi, sn, es, ls⟩ := h
  induction ls with
  | nil => rfl
  | cons l ls ih =>
    simp only [List.length_cons, popLengthIndicators, PopLengthIndicator]
    simp only [] at ih
    rw [ih]

theorem foldl_PushExtensionBit (es : List Nat) (h : SatEncapsulationHeader) :
    es.foldl PushExtensionBit h
      = { h with m_extensionBits := h.m_extensionBits ++ es.map (· % 256) } := by
  induction es generalizing h with
  | nil => simp
  | cons e es ih => simp [ih, PushExtensionBit]

theorem foldl_PushLengthIndicator (ls : List Nat) (h : SatEncapsulationHeader) :
    ls.foldl PushLengthIndicator h
      = { h with m_lengthIndicators := h.m_lengthIndicators ++ ls.map (· % 65536) } := by
  induction ls generalizing h with
  | nil => simp
  | cons l ls ih => simp [ih, PushLengthIndicator]

theorem popExtensionBits_short (n : Nat) (h : SatEncapsulationHeader)
    (hn : h.m_extensionBits.length < n) : popExtensionBits n h = .error .emptyList := by
  obtain ⟨hl, fi, sn, es, ls⟩ := h
  induction es generalizing n with
  | nil =>
    cases n with
    | zero => simp at hn
    | succ n => rfl
  | cons e es ih =>
    cases n with
    | zero => simp at hn
    | succ n =>
      simp only [List.length_cons, Nat.add_lt_add_iff_right] at hn
      simp only [popExtensionBits, PopExtensionBit]
      rw [ih n hn]

theorem popLengthIndicators_short (n : Nat) (h : SatEncapsulationHeader)
    (hn : h.m_lengthIndicators.length < n) : popLengthIndicators n h = .error .emptyList := by
  obtain ⟨hl, fi, sn, es, ls⟩ := h
  induction ls generalizing n with
  | nil =>
    cases n with
    | zero => simp at hn
    | succ n => rfl
  | cons l ls ih =>
    cases n with
    | zero => simp at hn
    | succ n =>
      simp only [List.length_cons, Nat.add_lt_add_iff_right] at hn
      simp only [popLengthIndicators, PopLengthIndicator]
      rw [ih n hn]

/-- C6: after pushing `es` with `PushExtensionBit` and `ls` with
`PushLengthIndicator`, popping returns the held values followed by the pushed
ones in push order; each pop removes the front element of its own list and
leaves every other member as it was; a pop on an empty list, and hence one pop
more than there are elements, is fatal. -/
theorem push_pop_fifo (h : SatEncapsulationHeader) (es ls : List Nat) :
    popExtensionBits (h.m_extensionBits.length + es.length)
        (ls.foldl PushLengthIndicator (es.foldl PushExtensionBit h))
      = .ok (h.m_extensionBits ++ es.map (· % 256),
          { h with m_extensionBits := []
                   m_lengthIndicators := h.m_lengthIndicators ++ ls.map (· % 65536) }) ∧
    popLengthIndicators (h.m_lengthIndicators.length + ls.length)
        (ls.foldl PushLengthIndicator (es.foldl PushExtensionBit h))
      = .ok (h.m_lengthIndicators ++ ls.map (· % 65536),
          { h with m_extensionBits := h.m_extensionBits ++ es.map (· % 256)
                   m_lengthIndicators := [] }) ∧
    (∀ e rest, PopExtensionBit { h with m_extensionBits := e :: rest }
      = .ok (e, { h with m_extensionBits := rest })) ∧
    (∀ l rest, PopLengthIndicator { h with m_lengthIndicators := l :: rest }
      = .ok (l, { h with m_lengthIndicators := rest })) ∧
    PopExtensionBit { h with m_extensionBits := [] } = .error .emptyList ∧
    PopLengthIndicator { h with m_lengthIndicators := [] } = .error .emptyList ∧
    popExtensionBits (h.m_extensionBits.length + es.length + 1)
        (ls.foldl PushLengthIndicator (es.foldl PushExtensionBit h)) = .error .emptyList ∧
    popLengthIndicators (h.m_lengthIndicators.length + ls.length + 1)
        (ls.foldl PushLengthIndicator (es.foldl PushExtensionBit h)) = .error .emptyList := by
  have hp : ls.foldl PushLengthIndicator (es.foldl PushExtensionBit h)
      = { h with m_extensionBits := h.m_extensionBits ++ es.map (· % 256)
                 m_lengthIndicators := h.m_lengthIndicators ++ ls.map (· % 65536) } := by
    rw [foldl_PushLengthIndicator, foldl_PushExtensionBit]
  rw [hp]
  refine ⟨?_, ?_, fun _ _ => rfl, fun _ _ => rfl, rfl, rfl, ?_, ?_⟩
  · have := popExtensionBits_all
      { h with m_extensionBits := h.m_extensionBits ++ es.map (· % 256)
               m_lengthIndicators := h.m_lengthIndicators ++ ls.map (· % 65536) }
    simpa using this
  · have := popLengthIndicators_all
      { h with m_extensionBits := h.m_extensionBits ++ es.map (· % 256)
               m_lengthIndicators := h.m_lengthIndicators ++ ls.map (· % 65536) }
    simpa using this
  · apply popExtensionBits_short
    simp
  · apply popLengthIndicators_short
    simp

end SatEncapsulationHeader

/-! ## Theorems: SequenceNumber10 -/

namespace SequenceNumber10

/-- C7: the sequence numbers 1023 and 0 are at distance 1, in either order, not
1023; in general the distance is the smaller of the two differences taken modulo
1024: it is below 1024 and that many steps modulo 1024 lead from one number to
the other. -/
theorem distance_wraparound (a b : SequenceNumber10) :
    distance (ofNat 1023) (ofNat 0) = 1 ∧ distance (ofNat 0) (ofNat 1023) = 1 ∧
    distance (ofNat 1023) (ofNat 0) ≠ 1023 ∧
    sub (ofNat 0) (ofNat 1023) = 1 ∧
    distance a b = min ((a.GetValue + 1024 - b.GetValue) % 1024)
      ((b.GetValue + 1024 - a.GetValue) % 1024) ∧
    distance a b < 1024 ∧ distance a b = distance b a ∧
    ((a.GetValue + distance a b) % 1024 = b.GetValue ∨
      (b.GetValue + distance a b) % 1024 = a.GetValue) := by
  have ha : a.GetValue < 1024 := a.m_value.isLt
  have hb : b.GetValue < 1024 := b.m_value.isLt
  refine ⟨by decide, by decide, by decide, by decide, rfl, ?_, ?_, ?_⟩
  · unfold distance sub; omega
  · unfold distance sub; omega
  · unfold distance sub; omega

end SequenceNumber10

/-! ## Theorems: SatChannelEstimationError -/

namespace SatChannelEstimationError

variable {α : Type}

theorem scanSamples_lt [LinearOrder α] (l : List α) (x : α) (hne : l ≠ []) :
    scanSamples l x < l.length := by
  induction l with
  | nil => exact absurd rfl hne
  | cons s t ih =>
    cases t with
    | nil => simp [scanSamples]
    | cons t ts =>
      simp only [scanSamples]
      split
      · have := ih (by simp)
        simp only [List.length_cons] at this ⊢
        omega
      · simp

theorem scanSamples_mem [LinearOrder α] (l : List α) (x : α)
    (hs : l.Pairwise (· ≤ ·)) (hx : x ∈ l) : l[scanSamples l x]? = some x := by
  induction l with
  | nil => simp at hx
  | cons s t ih =>
    cases t with
    | nil =>
      simp only [List.mem_singleton] at hx
      simp [scanSamples, hx]
    | cons t ts =>
      rw [List.pairwise_cons] at hs
      simp only [scanSamples]
      split
      · rename_i hlt
        have hx2 : x ∈ t :: ts := by
          rcases List.mem_cons.mp hx with h | h
          · exact absurd h (ne_of_gt hlt)
          · exact h
        simpa using ih hs.2 hx2
      · rename_i hge
        have hsx : s = x := by
          rcases List.mem_cons.mp hx with h | h
          · exact h.symm
          · exact le_antisymm (hs.1 x h) (not_lt.mp hge)
        simp [hsx]

theorem le_getLast_of_mem [LinearOrder α] (l : List α) (x : α) (d : α)
    (hs : l.Pairwise (· ≤ ·)) (hx : x ∈ l) : x ≤ l.getD (l.length - 1) d := by
  induction l with
  | nil => simp at hx
  | cons s t ih =>
    cases t with
    | nil =>
      simp only [List.mem_singleton] at hx
      simp [hx]
    | cons t ts =>
      rw [List.pairwise_cons] at hs
      have hlast : (s :: t :: ts).getD ((s :: t :: ts).length - 1) d
          = (t :: ts).getD ((t :: ts).length - 1) d := by
        simp
      rw [hlast]
      rcases List.mem_cons.mp hx with h | h
      · subst h
        have hm : (t :: ts).getD ((t :: ts).length - 1) d ∈ t :: ts := by
          simp only [List.getD_eq_getElem?_getD, List.length_cons, Nat.add_sub_cancel]
          rw [List.getElem?_eq_getElem (by simp)]
          exact List.getElem_mem _
        exact hs.1 _ hm
      · exact ih hs.2 h

theorem AddError_of_findSample [LinearOrder α] [Add α] (rows : List (α × α × α))
    (x : α) (normal : α → α → α) (i : Nat) (r : α × α × α)
    (hf : findSample (ofRows rows) x = .ok i) (hr : rows[i]? = some r) :
    AddError (ofRows rows) x normal = .ok (x + normal r.2.1 r.2.2) := by
  unfold AddError
  rw [hf]
  simp [ofRows, hr]

/-- C8: for a non-empty table sorted by SINR, `AddError` uses one row of the
table and returns; that row has the input's sinrDb when some row has it, is the
first row when the input is below the first row's sinrDb and the last row when
the input is above the last row's sinrDb. -/
theorem AddError_row [LinearOrder α] [Add α] (rows : List (α × α × α)) (sinrInDb : α)
    (normal : α → α → α) (hne : rows ≠ [])
    (hs : (rows.map fun r => r.1).Pairwise (· ≤ ·)) :
    ∃ i r, findSample (ofRows rows) sinrInDb = .ok i ∧ rows[i]? = some r ∧
      AddError (ofRows rows) sinrInDb normal = .ok (sinrInDb + normal r.2.1 r.2.2) ∧
      ((∃ r2 ∈ rows, r2.1 = sinrInDb) → r.1 = sinrInDb) ∧
      (∀ f, rows.head? = some f → sinrInDb < f.1 → i = 0) ∧
      (∀ l, rows.getLast? = some l → l.1 < sinrInDb → i = rows.length - 1) := by
  obtain ⟨r0, rs, rfl⟩ := List.exists_cons_of_ne_nil hne
  have hmem : (∃ r2 ∈ r0 :: rs, r2.1 = sinrInDb) →
      sinrInDb ∈ (r0 :: rs).map fun r => r.1 := by
    rintro ⟨r2, h2, rfl⟩
    exact List.mem_map_of_mem _ h2
  have hfirst : ∀ y ∈ (r0 :: rs).map fun r => r.1, r0.1 ≤ y := by
    intro y hy
    simp only [List.map_cons, List.pairwise_cons] at hs
    simp only [List.map_cons, List.mem_cons] at hy
    rcases hy with h | h
    · exact le_of_eq h.symm
    · exact hs.1 y h
  have hlen : ((r0 :: rs).map fun r => r.1).length = (r0 :: rs).length := List.length_map _ _
  have hlastmem : ((r0 :: rs).map fun r => r.1).getD ((r0 :: rs).length - 1) r0.1
      ∈ (r0 :: rs).map fun r => r.1 := by
    rw [List.getD_eq_getElem?_getD, List.getElem?_eq_getElem (by simp)]
    exact List.getElem_mem _
  have hlast : ∀ l, (r0 :: rs).getLast? = some l →
      ((r0 :: rs).map fun r => r.1).getD ((r0 :: rs).length - 1) r0.1 = l.1 := by
    intro l hl
    rw [List.getLast?_eq_getElem?] at hl
    rw [List.getD_eq_getElem?_getD, List.getElem?_map, hl]
    rfl
  by_cases h1 : sinrInDb < r0.1
  · have hf : findSample (ofRows (r0 :: rs)) sinrInDb = .ok 0 := by
      simp [findSample, ofRows, h1]
    have hr : (r0 :: rs)[0]? = some r0 := by simp
    refine ⟨0, r0, hf, hr, AddError_of_findSample _ _ _ _ _ hf hr, ?_, fun _ _ _ => rfl, ?_⟩
    · intro hex
      exact absurd (hfirst _ (hmem hex)) (not_le.mpr h1)
    · intro l hl hlt
      have := hfirst _ hlastmem
      rw [hlast l hl] at this
      exact absurd (lt_of_le_of_lt this hlt) (lt_asymm h1)
  · by_cases h2 : ((r0 :: rs).map fun r => r.1).getD ((r0 :: rs).length - 1) r0.1 < sinrInDb
    · have hf : findSample (ofRows (r0 :: rs)) sinrInDb = .ok ((r0 :: rs).length - 1) := by
        simp only [findSample, ofRows, List.map_cons, if_neg h1]
        rw [if_pos (by simpa using h2)]
      obtain ⟨r, hr⟩ : ∃ r, (r0 :: rs)[(r0 :: rs).length - 1]? = some r :=
        ⟨_, List.getElem?_eq_getElem (by simp)⟩
      have hr1 : ((r0 :: rs).map fun r => r.1).getD ((r0 :: rs).length - 1) r0.1 = r.1 :=
        hlast r (by rw [List.getLast?_eq_getElem?]; exact hr)
      refine ⟨_, r, hf, hr, AddError_of_findSample _ _ _ _ _ hf hr, ?_, ?_, fun _ _ _ => rfl⟩
      · intro hex
        have := le_getLast_of_mem _ _ r0.1 hs (hmem hex)
        rw [hlen] at this
        exact absurd h2 (not_lt.mpr this)
      · intro f hf2 hlt
        simp only [List.head?_cons, Option.some.injEq] at hf2
        subst hf2
        exact absurd hlt h1
    · have hf : findSample (ofRows (r0 :: rs)) sinrInDb
          = .ok (scanSamples ((r0 :: rs).map fun r => r.1) sinrInDb) := by
        simp only [findSample, ofRows, List.map_cons, if_neg h1]
        rw [if_neg (by simpa using h2)]
      have hlt := scanSamples_lt ((r0 :: rs).map fun r => r.1) sinrInDb (by simp)
      rw [hlen] at hlt
      obtain ⟨r, hr⟩ : ∃ r, (r0 :: rs)[scanSamples ((r0 :: rs).map fun r => r.1) sinrInDb]?
          = some r := ⟨_, List.getElem?_eq_getElem hlt⟩
      refine ⟨_, r, hf, hr, AddError_of_findSample _ _ _ _ _ hf hr, ?_, ?_, ?_⟩
      · intro hex
        have := scanSamples_mem _ _ hs (hmem hex)
        rw [List.getElem?_map, hr] at this
        simpa using this
      · intro f hf2 hlt2
        simp only [List.head?_cons, Option.some.injEq] at hf2
        subst hf2
        exact absurd hlt2 h1
      · intro l hl hlt2
        rw [hlast l hl] at h2
        exact absurd hlt2 h2

/-- Witness of C8: the table `sampleRows` looked up at the SINR of its second row. -/
theorem AddError_row_witness :
    sampleRows ≠ [] ∧ (sampleRows.map fun r => r.1).Pairwise (· ≤ ·) ∧
    ∃ i r, findSample (ofRows sampleRows) 5 = .ok i ∧ sampleRows[i]? = some r ∧
      AddError (ofRows sampleRows) 5 (fun a b => a + b) = .ok (5 + (r.2.1 + r.2.2)) ∧
      ((∃ r2 ∈ sampleRows, r2.1 = 5) → r.1 = 5) ∧
      (∀ f, sampleRows.head? = some f → 5 < f.1 → i = 0) ∧
      (∀ l, sampleRows.getLast? = some l → l.1 < 5 → i = sampleRows.length - 1) :=
  ⟨by decide, by decide,
    AddError_row sampleRows 5 (fun a b => a + b) (by decide) (by decide)⟩

theorem findSample_lt [LinearOrder α] (rows : List (α × α × α)) (x : α) (hne : rows ≠ []) :
    ∃ i, findSample (ofRows rows) x = .ok i ∧ i < rows.length := by
  obtain ⟨r0, rs, rfl⟩ := List.exists_cons_of_ne_nil hne
  simp only [findSample, ofRows, List.map_cons]
  split
  · exact ⟨0, rfl, by simp⟩
  · split
    · exact ⟨_, rfl, by simp⟩
    · refine ⟨_, rfl, ?_⟩
      have := scanSamples_lt ((r0 :: rs).map fun r => r.1) x (by simp)
      simpa using this

/-- C9 (as stated, refuted): on the table `sampleRows` a call of `AddError` at
the SINR of the first row uses sample 0, and `m_lastSampleIndex` is 2 after the
call. -/
theorem AddError_cache_counterexample :
    findSample (ofRows sampleRows) 0 = .ok 0 ∧
    (AddErrorStep (ofRows sampleRows) 0 (fun a b => a + b)).toOption.map
      (fun p => p.2.m_lastSampleIndex) = some 2 := by
  decide

/-- C9 (amended): `AddError` is a `const` member function: a call on a model
loaded from a non-empty table returns and leaves the model as it was;
`m_lastSampleIndex` stays the index of the last sample of the containers. -/
theorem AddErrorStep_const [LinearOrder α] [Add α] (rows : List (α × α × α)) (sinrInDb : α)
    (normal : α → α → α) (hne : rows ≠ []) :
    ∃ r, AddErrorStep (ofRows rows) sinrInDb normal = .ok (r, ofRows rows) ∧
      (ofRows rows).m_lastSampleIndex = rows.length - 1 ∧
      (ofRows rows).m_lastSampleIndex + 1 = (ofRows rows).m_sinrsDb.length := by
  obtain ⟨i, hf, hi⟩ := findSample_lt rows sinrInDb hne
  have hr : rows[i]? = some rows[i] := List.getElem?_eq_getElem hi
  have ha := AddError_of_findSample rows sinrInDb normal i _ hf hr
  refine ⟨sinrInDb + normal rows[i].2.1 rows[i].2.2, ?_, rfl, ?_⟩
  · unfold AddErrorStep
    rw [ha]
  · have : 0 < rows.length := List.length_pos.mpr hne
    simp only [ofRows, List.length_map]
    omega

/-- Witness of C9 (amended) on `sampleRows`. -/
theorem AddErrorStep_const_witness :
    sampleRows ≠ [] ∧
    ∃ r, AddErrorStep (ofRows sampleRows) 7 (fun a b => a + b) = .ok (r, ofRows sampleRows) ∧
      (ofRows sampleRows).m_lastSampleIndex = sampleRows.length - 1 ∧
      (ofRows sampleRows).m_lastSampleIndex + 1 = (ofRows sampleRows).m_sinrsDb.length :=
  ⟨by decide, AddErrorStep_const sampleRows 7 (fun a b => a + b) (by decide)⟩

end SatChannelEstimationError

/-! ## Theorems: the wire format of SatEncapsulationHeader -/

namespace SatEncapsulationHeader

theorem writeGroups_nil (fuel : Nat) (lis : List Nat) : writeGroups fuel [] lis = [] := by
  cases fuel <;> rfl

theorem writeGroups_step (fuel : Nat) (exts lis : List Nat) (hne : exts ≠ []) :
    writeGroups (fuel + 1) exts lis
      = packBits (exts.take 8) 128 ::
          (writeLengthIndicators (lis.take (countFollows (exts.take 8)))
            ++ writeGroups fuel (exts.drop 8) (lis.drop (countFollows (exts.take 8)))) := by
  cases exts with
  | nil => exact absurd rfl hne
  | cons e es => rfl

theorem length_writeLengthIndicators (ls : List Nat) :
    (writeLengthIndicators ls).length = 2 * ls.length := by
  induction ls with
  | nil => rfl
  | cons l ls ih =>
    simp only [writeLengthIndicators, writeU16, List.length_append, List.length_cons,
      List.length_nil, ih]
    omega

theorem readLengthIndicators_cons (k hi lo : Nat) (buf : List Nat) :
    readLengthIndicators (k + 1) (hi :: lo :: buf)
      = match readLengthIndicators k buf with
        | .error e => .error e
        | .ok (ls, rest) => .ok ((hi % 256 * 256 + lo % 256) :: ls, rest) := rfl

theorem readGroups_cons (fuel b : Nat) (buf : List Nat) :
    readGroups (fuel + 1) (b :: buf)
      = match readLengthIndicators (countFollows (walkBits 8 b).1) buf with
        | .error e => .error e
        | .ok (ls, rest) =>
          if (walkBits 8 b).2 then .ok ((walkBits 8 b).1, ls, rest)
          else
            match readGroups fuel rest with
            | .error e => .error e
            | .ok (es, ls2, rest2) => .ok ((walkBits 8 b).1 ++ es, ls ++ ls2, rest2) := rfl

theorem readLengthIndicators_write (ls rest : List Nat) (hls : ∀ l ∈ ls, l < 65536) :
    readLengthIndicators ls.length (writeLengthIndicators ls ++ rest) = .ok (ls, rest) := by
  induction ls with
  | nil => rfl
  | cons l ls ih =>
    have hl : l < 65536 := hls l (List.mem_cons_self _ _)
    have ih2 := ih (fun x hx => hls x (List.mem_cons_of_mem _ hx))
    have : l / 256 % 256 % 256 * 256 + l % 256 % 256 = l := by omega
    show readLengthIndicators (ls.length + 1)
      ((l / 256 % 256) :: (l % 256) :: (writeLengthIndicators ls ++ rest)) = _
    rw [readLengthIndicators_cons, ih2, this]

/-- The group byte of a final group of `n < 8` `E_LI_FIELDS_FOLLOWS` bits and the
terminating bit is read back as those bits. -/
theorem walkBits_packBits_last (n : Nat) (hn : n < 8) :
    walkBits 8 (packBits (List.replicate n E_LI_FIELDS_FOLLOWS ++ [DATA_FIELD_FOLLOWS]) 128)
      = (List.replicate n E_LI_FIELDS_FOLLOWS ++ [DATA_FIELD_FOLLOWS], true) ∧
    countFollows (List.replicate n E_LI_FIELDS_FOLLOWS ++ [DATA_FIELD_FOLLOWS]) = n := by
  interval_cases n <;> decide

theorem take_drop_wellFormed (m : Nat) :
    (List.replicate (m + 8) E_LI_FIELDS_FOLLOWS ++ [DATA_FIELD_FOLLOWS]).take 8
      = List.replicate 8 E_LI_FIELDS_FOLLOWS ∧
    (List.replicate (m + 8) E_LI_FIELDS_FOLLOWS ++ [DATA_FIELD_FOLLOWS]).drop 8
      = List.replicate m E_LI_FIELDS_FOLLOWS ++ [DATA_FIELD_FOLLOWS] := by
  have h : List.replicate (m + 8) E_LI_FIELDS_FOLLOWS
      = List.replicate 8 E_LI_FIELDS_FOLLOWS ++ List.replicate m E_LI_FIELDS_FOLLOWS := by
    rw [← List.replicate_add, Nat.add_comm]
  rw [h, List.append_assoc]
  constructor
  · rw [List.take_left' (by simp)]
  · rw [List.drop_left' (by simp)]

/-- Writing the groups of `n` fields-follow bits and the terminating bit with
their length indicators, then reading them, returns the bits, the length
indicators and the bytes after them; the groups take one byte per eight bits
and two bytes per length indicator. -/
theorem readGroups_writeGroups (n : Nat) : ∀ (ls rest : List Nat) (fuelW fuelR : Nat),
    ls.length = n → (∀ l ∈ ls, l < 65536) → n + 1 ≤ fuelW → n / 8 + 1 ≤ fuelR →
    readGroups fuelR
        (writeGroups fuelW (List.replicate n E_LI_FIELDS_FOLLOWS ++ [DATA_FIELD_FOLLOWS]) ls
          ++ rest)
      = .ok (List.replicate n E_LI_FIELDS_FOLLOWS ++ [DATA_FIELD_FOLLOWS], ls, rest) ∧
    (writeGroups fuelW (List.replicate n E_LI_FIELDS_FOLLOWS ++ [DATA_FIELD_FOLLOWS]) ls).length
      = (n + 8) / 8 + 2 * n := by
  induction n using Nat.strong_induction_on with
  | _ n ih =>
    intro ls rest fuelW fuelR hlen hls hW hR
    obtain ⟨fw, rfl⟩ : ∃ fw, fuelW = fw + 1 := ⟨fuelW - 1, by omega⟩
    obtain ⟨fr, rfl⟩ : ∃ fr, fuelR = fr + 1 := ⟨fuelR - 1, by omega⟩
    rw [writeGroups_step _ _ _ (by simp)]
    by_cases hn : n < 8
    · have htake : (List.replicate n E_LI_FIELDS_FOLLOWS ++ [DATA_FIELD_FOLLOWS]).take 8
          = List.replicate n E_LI_FIELDS_FOLLOWS ++ [DATA_FIELD_FOLLOWS] :=
        List.take_of_length_le (by simp; omega)
      have hdrop : (List.replicate n E_LI_FIELDS_FOLLOWS ++ [DATA_FIELD_FOLLOWS]).drop 8 = [] :=
        List.drop_of_length_le (by simp; omega)
      obtain ⟨hwalk, hcount⟩ := walkBits_packBits_last n hn
      rw [htake, hdrop, hcount, writeGroups_nil, List.append_nil,
        List.take_of_length_le (by omega)]
      constructor
      · rw [List.cons_append, readGroups_cons, hwalk]
        simp only [hcount]
        rw [← hlen, readLengthIndicators_write ls rest hls]
        rfl
      · rw [List.length_cons, length_writeLengthIndicators, hlen]
        omega
    · obtain ⟨m, rfl⟩ : ∃ m, n = m + 8 := ⟨n - 8, by omega⟩
      obtain ⟨htake, hdrop⟩ := take_drop_wellFormed m
      have hc8 : countFollows (List.replicate 8 E_LI_FIELDS_FOLLOWS) = 8 := by decide
      have hp8 : packBits (List.replicate 8 E_LI_FIELDS_FOLLOWS) 128 = 255 := by decide
      have hw8 : walkBits 8 255 = (List.replicate 8 E_LI_FIELDS_FOLLOWS, false) := by decide
      rw [htake, hdrop, hc8, hp8]
      have hlt : (ls.take 8).length = 8 := by
        rw [List.length_take]; omega
      have hld : (ls.drop 8).length = m := by
        rw [List.length_drop]; omega
      obtain ⟨hread, hsize⟩ := ih m (by omega) (ls.drop 8) rest fw fr hld
        (fun l hl => hls l (List.mem_of_mem_drop hl)) (by omega) (by omega)
      constructor
      · rw [List.cons_append, List.append_assoc, readGroups_cons, hw8]
        simp only [hc8]
        have h8 := readLengthIndicators_write (ls.take 8)
          (writeGroups fw (List.replicate m E_LI_FIELDS_FOLLOWS ++ [DATA_FIELD_FOLLOWS])
            (ls.drop 8) ++ rest) (fun l hl => hls l (List.mem_of_mem_take hl))
        rw [hlt] at h8
        rw [h8]
        simp only [Bool.false_eq_true, if_false, hread]
        have hrep : List.replicate 8 E_LI_FIELDS_FOLLOWS
            ++ (List.replicate m E_LI_FIELDS_FOLLOWS ++ [DATA_FIELD_FOLLOWS])
            = List.replicate (m + 8) E_LI_FIELDS_FOLLOWS ++ [DATA_FIELD_FOLLOWS] := by
          rw [← List.append_assoc, ← List.replicate_add, Nat.add_comm]
        rw [hrep, List.take_append_drop]
      · rw [List.length_cons, List.length_append, length_writeLengthIndicators, hlt, hsize]
        omega

theorem foldl_push_pairs (lis : List Nat) (h : SatEncapsulationHeader) :
    lis.foldl (fun h li => PushLengthIndicator (PushExtensionBit h E_LI_FIELDS_FOLLOWS) li) h
      = { h with
          m_extensionBits := h.m_extensionBits ++ List.replicate lis.length E_LI_FIELDS_FOLLOWS
          m_lengthIndicators := h.m_lengthIndicators ++ lis.map (· % 65536) } := by
  induction lis generalizing h with
  | nil => simp
  | cons l ls ih =>
    rw [List.foldl_cons, ih]
    simp [PushLengthIndicator, PushExtensionBit, E_LI_FIELDS_FOLLOWS, List.replicate_succ]

theorem build_eq (framingInfo : Nat) (sequenceNumber : SequenceNumber10) (lis : List Nat) :
    build framingInfo sequenceNumber lis
      = { m_headerLength := 0
          m_framingInfo := framingInfo % 4
          m_sequenceNumber := sequenceNumber
          m_extensionBits := List.replicate lis.length E_LI_FIELDS_FOLLOWS ++ [DATA_FIELD_FOLLOWS]
          m_lengthIndicators := lis.map (· % 65536) } := by
  unfold build
  rw [foldl_push_pairs]
  simp [PushExtensionBit, SetSequenceNumber, SetFramingInfo, new, DATA_FIELD_FOLLOWS]

theorem ofNat_GetValue (s : SequenceNumber10) : SequenceNumber10.ofNat s.GetValue = s := by
  obtain ⟨⟨v, hv⟩⟩ := s
  simp [SequenceNumber10.ofNat, SequenceNumber10.GetValue, Nat.mod_eq_of_lt hv]

/-- C1: for the header built on a fresh header by `SetFramingInfo`,
`SetSequenceNumber`, one `PushExtensionBit (E_LI_FIELDS_FOLLOWS)` /
`PushLengthIndicator` pair per element of `lis` and the terminating
`PushExtensionBit (DATA_FIELD_FOLLOWS)`, `Deserialize` on a fresh header reads
the bytes written by `Serialize` (whatever payload follows them) back to the same
framing info, sequence number, extension bits and length indicators, and
returns `GetSerializedSize ()` of the original header. -/
theorem serialize_deserialize_roundtrip (framingInfo : Nat) (sequenceNumber : SequenceNumber10)
    (lis payload : List Nat) :
    ∃ h2, Deserialize new (Serialize (build framingInfo sequenceNumber lis) ++ payload)
        = .ok (h2, GetSerializedSize (build framingInfo sequenceNumber lis)) ∧
      GetFramingInfo h2 = GetFramingInfo (build framingInfo sequenceNumber lis) ∧
      GetSequenceNumber h2 = GetSequenceNumber (build framingInfo sequenceNumber lis) ∧
      h2.m_extensionBits = (build framingInfo sequenceNumber lis).m_extensionBits ∧
      h2.m_lengthIndicators = (build framingInfo sequenceNumber lis).m_lengthIndicators ∧
      GetFramingInfo (build framingInfo sequenceNumber lis) = framingInfo % 4 ∧
      GetSequenceNumber (build framingInfo sequenceNumber lis) = sequenceNumber ∧
      (build framingInfo sequenceNumber lis).m_extensionBits
        = List.replicate lis.length E_LI_FIELDS_FOLLOWS ++ [DATA_FIELD_FOLLOWS] ∧
      (build framingInfo sequenceNumber lis).m_lengthIndicators = lis.map (· % 65536) := by
  rw [build_eq]
  have hsn : sequenceNumber.GetValue < 1024 := sequenceNumber.m_value.isLt
  obtain ⟨hread, hsize⟩ := readGroups_writeGroups lis.length (lis.map (· % 65536)) payload
    (List.replicate lis.length E_LI_FIELDS_FOLLOWS ++ [DATA_FIELD_FOLLOWS]).length
    (writeGroups (List.replicate lis.length E_LI_FIELDS_FOLLOWS ++ [DATA_FIELD_FOLLOWS]).length
      (List.replicate lis.length E_LI_FIELDS_FOLLOWS ++ [DATA_FIELD_FOLLOWS])
      (lis.map (· % 65536)) ++ payload).length
    (by simp)
    (by
      intro l hl
      obtain ⟨x, _, rfl⟩ := List.mem_map.mp hl
      exact Nat.mod_lt _ (by decide))
    (by simp)
    (by
      rw [List.length_append]
      have h := (readGroups_writeGroups lis.length (lis.map (· % 65536)) []
        (List.replicate lis.length E_LI_FIELDS_FOLLOWS ++ [DATA_FIELD_FOLLOWS]).length
        (lis.length / 8 + 1) (by simp)
        (by
          intro l hl
          obtain ⟨x, _, rfl⟩ := List.mem_map.mp hl
          exact Nat.mod_lt _ (by decide))
        (by simp) (le_refl _)).2
      rw [h]
      omega)
  refine ⟨{ m_headerLength := 0
            m_framingInfo := framingInfo % 4
            m_sequenceNumber := sequenceNumber
            m_extensionBits := List.replicate lis.length E_LI_FIELDS_FOLLOWS ++ [DATA_FIELD_FOLLOWS]
            m_lengthIndicators := lis.map (· % 65536) }, ?_, rfl, rfl, rfl, rfl, rfl, rfl, rfl, rfl⟩
  simp only [Serialize, List.cons_append, Deserialize, hread]
  have hfi : (framingInfo % 4 % 4 * 4 + sequenceNumber.GetValue / 256) / 4 % 4
      = framingInfo % 4 := by omega
  have hv : (framingInfo % 4 % 4 * 4 + sequenceNumber.GetValue / 256) % 4 * 256
      + sequenceNumber.GetValue % 256 % 256 = sequenceNumber.GetValue := by omega
  rw [hfi, hv, ofNat_GetValue]
  have hE : (List.replicate lis.length E_LI_FIELDS_FOLLOWS ++ [DATA_FIELD_FOLLOWS]).length
      = lis.length + 1 := by simp
  rw [hE] at hsize
  simp only [new, List.nil_append, GetSerializedSize, extensionBitGroups, List.length_map, hE,
    List.length_cons, List.length_append, hsize]
  have hc : (lis.length + 8) / 8 + 2 * lis.length + payload.length + 1 + 1 - payload.length
      = 2 + (lis.length + 1 + 7) / 8 + 2 * lis.length := by omega
  rw [hc]

end SatEncapsulationHeader

/-! ## Theorems: default Rayleigh parameters -/

namespace SatRayleighConf

/-- C11: a default-constructed `SatRayleighConf` has 4 elevation sets and 3
states, and for every set below 4 `GetParameters` returns a table of exactly 3
rows of exactly 2 values whose entry `[j][k]` is `g_RayleighParameters[set][j][k]`,
which is 10. -/
theorem GetParameters_default (set : Nat) (h : set < 4) :
    new.m_elevationCount = 4 ∧ new.m_stateCount = 3 ∧
    ∃ states, GetParameters new set = .ok states ∧ states.length = 3 ∧
      (∀ p ∈ states, p.length = 2) ∧
      ∀ j k, j < 3 → k < 2 →
        (states.getD j []).getD k 0 = g_RayleighParametersAt set j k ∧
        g_RayleighParametersAt set j k = 10 := by
  refine ⟨rfl, rfl, [[10, 10], [10, 10], [10, 10]], ?_, rfl, by decide, ?_⟩
  · interval_cases set <;> decide
  · intro j k hj hk
    interval_cases set <;> interval_cases j <;> interval_cases k <;> decide

/-- Witness of C11 at elevation set 2. -/
theorem GetParameters_default_witness :
    (2 : Nat) < 4 ∧ new.m_elevationCount = 4 ∧ new.m_stateCount = 3 ∧
    ∃ states, GetParameters new 2 = .ok states ∧ states.length = 3 ∧
      (∀ p ∈ states, p.length = 2) ∧
      ∀ j k, j < 3 → k < 2 →
        (states.getD j []).getD k 0 = g_RayleighParametersAt 2 j k ∧
        g_RayleighParametersAt 2 j k = 10 :=
  ⟨by decide, GetParameters_default 2 (by decide)⟩

end SatRayleighConf

/-! ## Theorems: examples/sat-ra-sim-tn9-comparison.cc -/

namespace SatRaSimTn9Comparison

/-- C15: whatever defaults the XML file and the command line left, when the
scenario is created the three capacity-allocation flags of DA services 0 to 3
are false, the fading model is `FADING_OFF` and random access dynamic load
control is false. -/
theorem dama_cra_fading_loadControl_off (numOfInstances : Nat) (loaded : Defaults) :
    defaultsAtCreation numOfInstances loaded
        "ns3::SatLowerLayerServiceConf::DaService0_ConstantAssignmentProvided"
      = some (.boolean false) ∧
    defaultsAtCreation numOfInstances loaded
        "ns3::SatLowerLayerServiceConf::DaService1_ConstantAssignmentProvided"
      = some (.boolean false) ∧
    defaultsAtCreation numOfInstances loaded
        "ns3::SatLowerLayerServiceConf::DaService2_ConstantAssignmentProvided"
      = some (.boolean false) ∧
    defaultsAtCreation numOfInstances loaded
        "ns3::SatLowerLayerServiceConf::DaService3_ConstantAssignmentProvided"
      = some (.boolean false) ∧
    defaultsAtCreation numOfInstances loaded
        "ns3::SatLowerLayerServiceConf::DaService0_RbdcAllowed" = some (.boolean false) ∧
    defaultsAtCreation numOfInstances loaded
        "ns3::SatLowerLayerServiceConf::DaService1_RbdcAllowed" = some (.boolean false) ∧
    defaultsAtCreation numOfInstances loaded
        "ns3::SatLowerLayerServiceConf::DaService2_RbdcAllowed" = some (.boolean false) ∧
    defaultsAtCreation numOfInstances loaded
        "ns3::SatLowerLayerServiceConf::DaService3_RbdcAllowed" = some (.boolean false) ∧
    defaultsAtCreation numOfInstances loaded
        "ns3::SatLowerLayerServiceConf::DaService0_VolumeAllowed" = some (.boolean false) ∧
    defaultsAtCreation numOfInstances loaded
        "ns3::SatLowerLayerServiceConf::DaService1_VolumeAllowed" = some (.boolean false) ∧
    defaultsAtCreation numOfInstances loaded
        "ns3::SatLowerLayerServiceConf::DaService2_VolumeAllowed" = some (.boolean false) ∧
    defaultsAtCreation numOfInstances loaded
        "ns3::SatLowerLayerServiceConf::DaService3_VolumeAllowed" = some (.boolean false) ∧
    defaultsAtCreation numOfInstances loaded "ns3::SatBeamHelper::FadingModel"
      = some (.enumerator "SatEnums::FADING_OFF") ∧
    defaultsAtCreation numOfInstances loaded
        "ns3::SatPhyRxCarrierConf::EnableRandomAccessDynamicLoadControl"
      = some (.boolean false) :=
  ⟨rfl, rfl, rfl, rfl, rfl, rfl, rfl, rfl, rfl, rfl, rfl, rfl, rfl, rfl⟩

/-- C16 (the code at the failing input): the script sets both back-off
probabilities of random access service 0 to 1, not to 0. -/
theorem backOffProbability_set (numOfInstances : Nat) (loaded : Defaults) :
    defaultsAtCreation numOfInstances loaded
        "ns3::SatLowerLayerServiceConf::RaService0_BackOffProbability" = some (.uinteger 1) ∧
    defaultsAtCreation numOfInstances loaded
        "ns3::SatLowerLayerServiceConf::RaService0_HighLoadBackOffProbability"
      = some (.uinteger 1) ∧
    AttributeValue.uinteger 1 ≠ AttributeValue.uinteger 0 :=
  ⟨rfl, rfl, by decide⟩

/-- C17 (the code at the failing input): the script sets the maximum number of
consecutive blocks accessed of random access service 0 to the finite value 6. -/
theorem maximumConsecutiveBlockAccessed_set (numOfInstances : Nat) (loaded : Defaults) :
    defaultsAtCreation numOfInstances loaded
        "ns3::SatLowerLayerServiceConf::RaService0_MaximumConsecutiveBlockAccessed"
      = some (.uinteger 6) :=
  rfl

end SatRaSimTn9Comparison

/-! ## Theorems: examples/sat-training-example.cc -/

namespace SatTrainingExample

theorem beamMap_eq (utsPerBeam endUsersPerUt : Nat) :
    beamMap utsPerBeam endUsersPerUt
      = coChannelBeams.map fun k =>
          (k, { utsPerBeam := utsPerBeam, endUsersPerUt := endUsersPerUt }) := by
  rfl

/-- C18: the beam map passed to `CreateUserDefinedScenario` has exactly 16
entries, its keys are the listed co-channel beam ids, which are pairwise
distinct, and every entry carries the beam info of `utsPerBeam` UTs with
`endUsersPerUt` end users per UT. -/
theorem beamMap_entries (utsPerBeam endUsersPerUt : Nat) :
    (beamMap utsPerBeam endUsersPerUt).length = 16 ∧
    (beamMap utsPerBeam endUsersPerUt).map (fun e => e.1)
      = [1, 3, 5, 7, 9, 22, 24, 26, 28, 30, 44, 46, 48, 50, 59, 61] ∧
    (beamMap utsPerBeam endUsersPerUt).map (fun e => e.1) = coChannelBeams ∧
    coChannelBeams.Nodup ∧ coChannelBeams.length = BEAMS ∧
    (beamMap utsPerBeam endUsersPerUt).map (fun e => e.2)
      = List.replicate 16 { utsPerBeam := utsPerBeam, endUsersPerUt := endUsersPerUt } := by
  rw [beamMap_eq]
  refine ⟨by simp [coChannelBeams], ?_, ?_, by decide, rfl, ?_⟩
  · simp [coChannelBeams]
  · simp [coChannelBeams]
  · simp [coChannelBeams, List.replicate]

end SatTrainingExample

/-! ## Theorems: examples/sat-loo-example.cc -/

namespace SatLooExample

theorem sampleTime_eq (c i : Nat) (hc : c ≤ 700000) (hi : i < 1000) :
    sampleTime c i = c + 500000 * i := by
  unfold sampleTime
  omega

theorem length_scheduled (n : Nat) : (scheduled n).length = 3 * n := by
  induction n with
  | zero => rfl
  | succ n ih =>
    simp only [scheduled, List.length_append, ih, iteration, List.length_cons, List.length_nil]
    omega

theorem scheduled_getElem? (n i : Nat) (hi : i < n) :
    (scheduled n)[3 * i]? = some (sampleTime 300000 i, .looFaderLineOfSight) ∧
    (scheduled n)[3 * i + 1]? = some (sampleTime 500000 i, .looFaderLightShadowing) ∧
    (scheduled n)[3 * i + 2]? = some (sampleTime 700000 i, .looFaderHeavyShadowing) := by
  induction n with
  | zero => omega
  | succ n ih =>
    simp only [scheduled]
    by_cases h : i < n
    · obtain ⟨h0, h1, h2⟩ := ih h
      have hl := length_scheduled n
      refine ⟨?_, ?_, ?_⟩
      · rw [List.getElem?_append_left (by omega)]; exact h0
      · rw [List.getElem?_append_left (by omega)]; exact h1
      · rw [List.getElem?_append_left (by omega)]; exact h2
    · have hin : i = n := by omega
      subst hin
      have hl := length_scheduled i
      refine ⟨?_, ?_, ?_⟩
      · rw [List.getElem?_append_right (by omega), hl, Nat.sub_self]; rfl
      · rw [List.getElem?_append_right (by omega), hl, Nat.add_sub_cancel_left]; rfl
      · rw [List.getElem?_append_right (by omega), hl, Nat.add_sub_cancel_left]; rfl

theorem scheduled_sorted (n : Nat) (hn : n ≤ 1000) :
    (scheduled n).Pairwise (fun a b => a.1 < b.1) ∧
    ∀ e ∈ scheduled n, e.1 < 300000 + 500000 * n := by
  induction n with
  | zero => simp [scheduled]
  | succ n ih =>
    obtain ⟨hp, hb⟩ := ih (by omega)
    have h0 := sampleTime_eq 300000 n (by omega) (by omega)
    have h1 := sampleTime_eq 500000 n (by omega) (by omega)
    have h2 := sampleTime_eq 700000 n (by omega) (by omega)
    constructor
    · simp only [scheduled]
      rw [List.pairwise_append]
      refine ⟨hp, ?_, ?_⟩
      · simp only [iteration, List.pairwise_cons, List.mem_cons, List.mem_singleton,
          List.not_mem_nil, false_implies, implies_true, List.Pairwise.nil, and_true,
          forall_eq_or_imp, forall_eq, h0, h1, h2]
        omega
      · intro a ha b hb2
        have := hb a ha
        simp only [iteration, List.mem_cons, List.mem_singleton, List.not_mem_nil,
          or_false] at hb2
        rcases hb2 with rfl | rfl | rfl <;> simp only [h0, h1, h2] <;> omega
    · intro e he
      simp only [scheduled, List.mem_append, iteration, List.mem_cons, List.mem_singleton,
        List.not_mem_nil, or_false] at he
      rcases he with he | rfl | rfl | rfl
      · have := hb e he; omega
      · simp only [h0]; omega
      · simp only [h1]; omega
      · simp only [h2]; omega

/-- C12: the example creates three faders with 3 states on elevation set 0 and
initial states 0, 1 and 2; for every `i < 1000` the 32-bit sampling times do not
wrap and are `300000+500000*i < 500000+500000*i < 700000+500000*i <
300000+500000*(i+1)`; exactly 3000 samples are scheduled, at strictly increasing
and hence pairwise distinct times, so the events run in the order they were
scheduled and positions `3*i`, `3*i+1`, `3*i+2` of the run sample the line of
sight, light shadowing and heavy shadowing fader. -/
theorem schedule_rotation (i : Nat) (hi : i < 1000) :
    Fader.looFaderLineOfSight.arguments = (3, 0, 0) ∧
    Fader.looFaderLightShadowing.arguments = (3, 0, 1) ∧
    Fader.looFaderHeavyShadowing.arguments = (3, 0, 2) ∧
    sampleTime 300000 i = 300000 + 500000 * i ∧
    sampleTime 500000 i = 500000 + 500000 * i ∧
    sampleTime 700000 i = 700000 + 500000 * i ∧
    sampleTime 300000 i < sampleTime 500000 i ∧
    sampleTime 500000 i < sampleTime 700000 i ∧
    sampleTime 700000 i < 300000 + 500000 * (i + 1) ∧
    schedule.length = 3000 ∧
    schedule.Pairwise (fun a b => a.1 < b.1) ∧
    (schedule.map fun e => e.1).Nodup ∧
    executionOrder schedule = schedule ∧
    (executionOrder schedule)[3 * i]?
      = some (300000 + 500000 * i, Fader.looFaderLineOfSight) ∧
    (executionOrder schedule)[3 * i + 1]?
      = some (500000 + 500000 * i, Fader.looFaderLightShadowing) ∧
    (executionOrder schedule)[3 * i + 2]?
      = some (700000 + 500000 * i, Fader.looFaderHeavyShadowing) := by
  have h0 := sampleTime_eq 300000 i (by omega) hi
  have h1 := sampleTime_eq 500000 i (by omega) hi
  have h2 := sampleTime_eq 700000 i (by omega) hi
  have hs := (scheduled_sorted 1000 (le_refl _)).1
  have hex : executionOrder schedule = schedule := by
    unfold executionOrder
    apply List.Sorted.insertionSort_eq
    exact hs.imp (fun h => Nat.le_of_lt h)
  obtain ⟨g0, g1, g2⟩ := scheduled_getElem? 1000 i hi
  refine ⟨rfl, rfl, rfl, h0, h1, h2, by omega, by omega, by omega, length_scheduled 1000, hs,
    ?_, hex, ?_, ?_, ?_⟩
  · rw [List.Nodup, List.pairwise_map]
    exact hs.imp (fun h => Nat.ne_of_lt h)
  · rw [hex, ← h0]; exact g0
  · rw [hex, ← h1]; exact g1
  · rw [hex, ← h2]; exact g2

/-- Witness of C12 at the last iteration `i = 999`. -/
theorem schedule_rotation_witness :
    (999 : Nat) < 1000 ∧
    sampleTime 300000 999 = 300000 + 500000 * 999 ∧
    sampleTime 700000 999 < 300000 + 500000 * (999 + 1) ∧
    schedule.length = 3000 ∧
    (executionOrder schedule)[3 * 999 + 2]?
      = some (700000 + 500000 * 999, Fader.looFaderHeavyShadowing) :=
  ⟨by decide, (schedule_rotation 999 (by decide)).2.2.2.1,
    (schedule_rotation 999 (by decide)).2.2.2.2.2.2.2.2.1,
    (schedule_rotation 999 (by decide)).2.2.2.2.2.2.2.2.2.1,
    (schedule_rotation 999 (by decide)).2.2.2.2.2.2.2.2.2.2.2.2.2.2.2⟩

end SatLooExample

/-! ## Theorems: examples/sat-multi-application-fwd-example.cc -/

namespace SatMultiApplicationFwdExample

theorem divideLoop_eq {α : Type} [LinearOrder α] (rand : Nat → α) (cbrProbability : α)
    (us : List Nat) (k : Nat) (g : UserGroups) :
    divideLoop rand cbrProbability us k g
      = { utCbrUsers := g.utCbrUsers
            ++ ((us.enumFrom k).filter fun q => decide (rand q.1 < cbrProbability)).map (·.2)
          utOnOffUsers := g.utOnOffUsers
            ++ ((us.enumFrom k).filter fun q => !decide (rand q.1 < cbrProbability)).map (·.2)
          defaultTos := g.defaultTos
            ++ (us.enumFrom k).map fun q =>
                (q.2, if rand q.1 < cbrProbability then cbrTos else onOffTos) } := by
  induction us generalizing k g with
  | nil => simp [divideLoop]
  | cons u us ih =>
    simp only [divideLoop, List.enumFrom_cons]
    by_cases h : rand k < cbrProbability
    · simp [h, ih]
    · simp [h, ih]

/-- C13: the dividing loop puts the `k`-th UT user into the CBR group when the
`k`-th uniform draw is below `cbrProbability` and into the On-Off group
otherwise; the two groups together hold every UT user exactly once, so their
sizes sum to the number of UT users; the loop sets `DefaultTos` once per user, to
0xB8 for the users of the CBR group and to 0x28 for those of the On-Off group. -/
theorem divideUsers_groups {α : Type} [LinearOrder α] (utUsers : List Nat) (rand : Nat → α)
    (cbrProbability : α) :
    (divideUsers utUsers rand cbrProbability).utCbrUsers
      = (utUsers.enum.filter fun q => decide (rand q.1 < cbrProbability)).map (·.2) ∧
    (divideUsers utUsers rand cbrProbability).utOnOffUsers
      = (utUsers.enum.filter fun q => !decide (rand q.1 < cbrProbability)).map (·.2) ∧
    ((divideUsers utUsers rand cbrProbability).utCbrUsers
      ++ (divideUsers utUsers rand cbrProbability).utOnOffUsers).Perm utUsers ∧
    (divideUsers utUsers rand cbrProbability).utCbrUsers.length
      + (divideUsers utUsers rand cbrProbability).utOnOffUsers.length = utUsers.length ∧
    (divideUsers utUsers rand cbrProbability).defaultTos
      = utUsers.enum.map (fun q =>
          (q.2, if rand q.1 < cbrProbability then 0xB8 else 0x28)) ∧
    (divideUsers utUsers rand cbrProbability).defaultTos.map (·.1) = utUsers ∧
    (∀ u ∈ (divideUsers utUsers rand cbrProbability).utCbrUsers,
      (u, 0xB8) ∈ (divideUsers utUsers rand cbrProbability).defaultTos) ∧
    (∀ u ∈ (divideUsers utUsers rand cbrProbability).utOnOffUsers,
      (u, 0x28) ∈ (divideUsers utUsers rand cbrProbability).defaultTos) := by
  have hd := divideLoop_eq rand cbrProbability utUsers 0
    { utCbrUsers := [], utOnOffUsers := [], defaultTos := [] }
  simp only [List.nil_append] at hd
  have hperm : (((utUsers.enum.filter fun q => decide (rand q.1 < cbrProbability)).map (·.2))
      ++ ((utUsers.enum.filter fun q => !decide (rand q.1 < cbrProbability)).map (·.2))).Perm
        utUsers := by
    rw [← List.map_append]
    have h1 := (List.filter_append_perm (fun q : Nat × Nat => decide (rand q.1 < cbrProbability))
      utUsers.enum).map (·.2)
    have h2 : utUsers.enum.map (·.2) = utUsers := List.enumFrom_map_snd 0 utUsers
    rw [h2] at h1
    exact h1
  unfold divideUsers
  rw [hd]
  refine ⟨rfl, rfl, hperm, ?_, rfl, ?_, ?_, ?_⟩
  · have := hperm.length_eq
    simpa using this
  · simp only [List.map_map]
    exact List.enumFrom_map_snd 0 utUsers
  · intro u hu
    simp only [List.mem_map, List.mem_filter, decide_eq_true_eq] at hu ⊢
    obtain ⟨q, ⟨hq, hlt⟩, rfl⟩ := hu
    exact ⟨q, hq, by simp [hlt, cbrTos]⟩
  · intro u hu
    simp only [List.mem_map, List.mem_filter, Bool.not_eq_true', decide_eq_false_iff_not] at hu ⊢
    obtain ⟨q, ⟨hq, hlt⟩, rfl⟩ := hu
    exact ⟨q, hq, by simp [hlt, onOffTos]⟩

theorem cbrLoop_eq (GetUserAddress : Nat → Nat) (gwUsers : List Nat) (gw : Nat)
    (hgw : gwUsers[4]? = some gw) (us : List Nat) (apps : CbrApplications) :
    cbrLoop GetUserAddress gwUsers us apps
      = .ok { gwCbrApps := apps.gwCbrApps
                ++ us.map fun u => { node := gw, address := (GetUserAddress u, port) }
              utCbrSinkApps := apps.utCbrSinkApps
                ++ us.map fun u => { node := u, address := (GetUserAddress u, port) } } := by
  induction us generalizing apps with
  | nil => simp [cbrLoop]
  | cons u us ih =>
    simp only [cbrLoop, hgw]
    rw [ih]
    simp

/-- C14: when GW user number 4 exists, the CBR application definitions install,
for the `i`-th CBR UT user, one sender on GW user number 4 with `Remote` the
address of that UT user at port 9 and one sink on that UT user with `Local` the
same address and port; senders, sinks and CBR users are equally many and the
`i`-th sender targets the `i`-th sink. -/
theorem installCbr_pairs (GetUserAddress : Nat → Nat) (gwUsers utCbrUsers : List Nat) (gw : Nat)
    (hgw : gwUsers[4]? = some gw) :
    ∃ apps, installCbr GetUserAddress gwUsers utCbrUsers = .ok apps ∧
      apps.gwCbrApps
        = utCbrUsers.map (fun u => { node := gw, address := (GetUserAddress u, 9) }) ∧
      apps.utCbrSinkApps
        = utCbrUsers.map (fun u => { node := u, address := (GetUserAddress u, 9) }) ∧
      apps.gwCbrApps.length = utCbrUsers.length ∧
      apps.utCbrSinkApps.length = utCbrUsers.length ∧
      apps.gwCbrApps.map (·.address) = apps.utCbrSinkApps.map (·.address) ∧
      apps.utCbrSinkApps.map (·.node) = utCbrUsers := by
  refine ⟨{ gwCbrApps := utCbrUsers.map fun u => { node := gw, address := (GetUserAddress u, 9) }
            utCbrSinkApps :=
              utCbrUsers.map fun u => { node := u, address := (GetUserAddress u, 9) } },
    ?_, rfl, rfl, by simp, by simp, by simp, ?_⟩
  · unfold installCbr
    cases utCbrUsers with
    | nil => simp
    | cons u us =>
      rw [if_pos (by simp), cbrLoop_eq GetUserAddress gwUsers gw hgw]
      simp [port]
  · rw [List.map_map]
    exact List.map_id _

/-- Witness of C14: five GW users and the CBR UT users 11 and 12. -/
theorem installCbr_pairs_witness :
    [20, 21, 22, 23, 24][4]? = some 24 ∧
    ∃ apps, installCbr (fun u => 1000 + u) [20, 21, 22, 23, 24] [11, 12] = .ok apps ∧
      apps.gwCbrApps
        = [11, 12].map (fun u => { node := 24, address := ((fun u => 1000 + u) u, 9) }) ∧
      apps.utCbrSinkApps
        = [11, 12].map (fun u => { node := u, address := ((fun u => 1000 + u) u, 9) }) ∧
      apps.gwCbrApps.length = [11, 12].length ∧
      apps.utCbrSinkApps.length = [11, 12].length ∧
      apps.gwCbrApps.map (·.address) = apps.utCbrSinkApps.map (·.address) ∧
      apps.utCbrSinkApps.map (·.node) = [11, 12] :=
  ⟨by decide, installCbr_pairs (fun u => 1000 + u) [20, 21, 22, 23, 24] [11, 12] 24 (by decide)⟩

end SatMultiApplicationFwdExample

/-! ## Theorems: application start times of examples/sat-training-example.cc -/

namespace SatTrainingExample

theorem length_startTimesFrom (rnd : Nat → Fin 51) (us : List Nat) (k t : Nat) :
    (startTimesFrom rnd us k t).length = us.length := by
  induction us generalizing k t with
  | nil => rfl
  | cons u us ih => simp [startTimesFrom, ih]

theorem le_of_mem_startTimesFrom (rnd : Nat → Fin 51) (us : List Nat) (k t : Nat) :
    ∀ x ∈ startTimesFrom rnd us k t, t ≤ x := by
  induction us generalizing k t with
  | nil => simp [startTimesFrom]
  | cons u us ih =>
    intro x hx
    simp only [startTimesFrom, List.mem_cons] at hx
    rcases hx with rfl | hx
    · exact le_refl _
    · have := ih (k + 1) (t + (rnd k).val) x hx
      omega

theorem startTimesFrom_sorted (rnd : Nat → Fin 51) (us : List Nat) (k t : Nat) :
    (startTimesFrom rnd us k t).Pairwise (· ≤ ·) := by
  induction us generalizing k t with
  | nil => simp [startTimesFrom]
  | cons u us ih =>
    simp only [startTimesFrom, List.pairwise_cons]
    refine ⟨?_, ih _ _⟩
    intro x hx
    have := le_of_mem_startTimesFrom rnd us (k + 1) (t + (rnd k).val) x hx
    omega

theorem startTimesFrom_const_iff (rnd : Nat → Fin 51) (us : List Nat) (k t : Nat) :
    (∀ x ∈ startTimesFrom rnd us k t, x = t)
      ↔ ∀ j, j + 1 < us.length → (rnd (k + j)).val = 0 := by
  induction us generalizing k t with
  | nil => simp [startTimesFrom]
  | cons u us ih =>
    cases us with
    | nil => simp [startTimesFrom]
    | cons v us =>
      have ih2 := ih (k + 1) (t + (rnd k).val)
      constructor
      · intro h j hj
        have hhead : t + (rnd k).val = t :=
          h _ (by simp [startTimesFrom])
        have hr : (rnd k).val = 0 := by omega
        cases j with
        | zero => simpa using hr
        | succ j =>
          have hall : ∀ x ∈ startTimesFrom rnd (v :: us) (k + 1) (t + (rnd k).val),
              x = t + (rnd k).val := by
            intro x hx
            rw [hr, Nat.add_zero]
            exact h x (by simp only [startTimesFrom, List.mem_cons] at hx ⊢; exact Or.inr hx)
          have := ih2.mp hall j (by simp only [List.length_cons] at hj ⊢; omega)
          rw [show k + (j + 1) = k + 1 + j by omega]
          exact this
      · intro h x hx
        have hr : (rnd k).val = 0 := by
          have := h 0 (by simp)
          simpa using this
        simp only [startTimesFrom, List.mem_cons] at hx
        rcases hx with rfl | hx
        · rfl
        · have hall := ih2.mpr (fun j hj => by
            have := h (j + 1) (by simp only [List.length_cons] at hj ⊢; omega)
            rw [show k + (j + 1) = k + 1 + j by omega] at this
            exact this)
          have hx2 : x ∈ startTimesFrom rnd (v :: us) (k + 1) (t + (rnd k).val) := by
            simp only [startTimesFrom, List.mem_cons]
            exact hx
          have := hall x hx2
          omega

/-- C19 (as stated, refuted): with two UT users and both outcomes of
`GetInteger (0, 50)` equal to 0, the two On-Off applications receive the same
start time of 100 ms. -/
theorem startTimes_counterexample :
    2 ≤ [1, 2].length ∧ startTimes [1, 2] (fun _ => 0) = [100, 100] ∧
    allSame (startTimes [1, 2] (fun _ => 0)) := by
  decide

/-- C19 (amended): with at least two UT users every application gets a start
time, the first one 100 ms, the start times never decrease, and the applications
all receive the same start time exactly when every draw of `GetInteger (0, 50)`
made between two applications is 0. -/
theorem startTimes_varied (utUsers : List Nat) (rnd : Nat → Fin 51)
    (h : 2 ≤ utUsers.length) :
    (startTimes utUsers rnd).length = utUsers.length ∧
    (startTimes utUsers rnd).head? = some 100 ∧
    (startTimes utUsers rnd).Pairwise (· ≤ ·) ∧
    (allSame (startTimes utUsers rnd)
      ↔ ∀ j, j + 1 < utUsers.length → (rnd j).val = 0) := by
  refine ⟨length_startTimesFrom _ _ _ _, ?_, startTimesFrom_sorted _ _ _ _, ?_⟩
  · cases utUsers with
    | nil => simp at h
    | cons u us => rfl
  · have hiff := startTimesFrom_const_iff rnd utUsers 0 100
    simp only [Nat.zero_add] at hiff
    rw [← hiff]
    unfold startTimes allSame
    cases utUsers with
    | nil => simp at h
    | cons u us =>
      constructor
      · intro hs x hx
        exact hs x hx 100 (by simp [startTimesFrom])
      · intro hs x hx y hy
        rw [hs x hx, hs y hy]

/-- Witness of C19 (amended): three UT users whose draws are all 7. -/
theorem startTimes_varied_witness :
    2 ≤ [1, 2, 3].length ∧
    (startTimes [1, 2, 3] (fun _ => 7)).length = [1, 2, 3].length ∧
    (startTimes [1, 2, 3] (fun _ => 7)).head? = some 100 ∧
    (startTimes [1, 2, 3] (fun _ => 7)).Pairwise (· ≤ ·) ∧
    (allSame (startTimes [1, 2, 3] (fun _ => 7))
      ↔ ∀ j, j + 1 < [1, 2, 3].length → ((fun _ => 7 : Nat → Fin 51) j).val = 0) :=
  ⟨by decide, startTimes_varied [1, 2, 3] (fun _ => 7) (by decide)⟩

end SatTrainingExample
